import Mathlib

/-! PCA95x5 GPIO expander driver (`esp32m/src/io/pca95x5.cpp`).

A shallow embedding of the driver: the cached registers of one chip, the
ambient pin transaction, the I2C transport seen as a recorded trace of
register accesses, and the driver methods as state-passing functions.

`ESP_CHECK_RETURN(x)` (a framework macro) evaluates `x` and, when the error
code is not `ESP_OK`, returns that code from the enclosing method at once; it
appears below as an `if err ≠ ESP_OK then (err, state)` around the rest of the
method.

Machine integers are naturals. `uint16_t` members are kept below `2 ^ 16` by
an explicit `% 65536` at every store, and the `int` value `1 << pin` is kept
as its 32-bit two's-complement bit pattern.
-/

namespace esp32m
namespace io

/-! ## Error codes and framework enumerations -/

/-- The ESP-IDF error code type `esp_err_t` (a signed integer). -/
abbrev esp_err_t := Int

/-- The success value of `esp_err_t`. -/
def ESP_OK : esp_err_t := 0

/-- The generic failure value of `esp_err_t`. -/
def ESP_FAIL : esp_err_t := -1

/-- The ESP-IDF `gpio_mode_t` enumeration. -/
inductive gpio_mode_t where
  | GPIO_MODE_DISABLE
  | GPIO_MODE_INPUT
  | GPIO_MODE_OUTPUT
  | GPIO_MODE_OUTPUT_OD
  | GPIO_MODE_INPUT_OUTPUT_OD
  | GPIO_MODE_INPUT_OUTPUT
deriving DecidableEq

/-- The ESP-IDF `gpio_pull_mode_t` enumeration. -/
inductive gpio_pull_mode_t where
  | GPIO_PULLUP_ONLY
  | GPIO_PULLDOWN_ONLY
  | GPIO_PULLUP_PULLDOWN
  | GPIO_FLOATING
deriving DecidableEq

/-- Byte order of multi-byte register values (`Endian` of the framework). -/
inductive Endian where
  | Little
  | Big
deriving DecidableEq

/-! ## Register map -/

/-- Input-status register offset. -/
def RegInput : Nat := 0

/-- Output register offset. -/
def RegOutput : Nat := 2

/-- Polarity-inversion register offset (not used by the driver). -/
def RegInversion : Nat := 4

/-- Configuration (direction) register offset. -/
def RegConfig : Nat := 6

/-! ## Transport -/

/-- One register access as seen on the bus. -/
inductive BusOp where
  | read (reg : Nat)
  | write (reg : Nat) (value : Nat)
deriving DecidableEq

/-- Modelled from the spec: the behaviour of the I2C transport behind
`readSafe` and `writeSafe` (class `I2C`, not part of the driver source).
Each access gets an answer that may depend on every access issued before it.
`readSafe history reg cur` gives the error code and the value left in the
destination, which held `cur` before the call; `writeSafe history reg v`
gives the error code of writing `v`. -/
structure Transport where
  readSafe : List BusOp → Nat → Nat → esp_err_t × Nat
  writeSafe : List BusOp → Nat → Nat → esp_err_t

/-- Modelled from the spec: the state of one `I2C` object: its error
suppression window, its byte order, and the accesses it has issued so far,
oldest first. -/
structure I2C where
  errSnooze : Nat
  endianness : Endian
  trace : List BusOp
deriving DecidableEq

/-- Outcome of a register read: error code, the 16-bit value now held by the
destination, and the transport object. -/
structure ReadResult where
  err : esp_err_t
  value : Nat
  i2c : I2C

/-- Outcome of a register write: error code and the transport object. -/
structure WriteResult where
  err : esp_err_t
  i2c : I2C

/-- Modelled from the spec: `I2C::readSafe(reg, value)` with a `uint16_t`
destination `value`: one read access is recorded and the destination is
stored modulo `2 ^ 16`. -/
def I2C.readSafe (t : Transport) (i2c : I2C) (reg : Nat) (value : Nat) : ReadResult :=
  { err := (t.readSafe i2c.trace reg value).1
    value := (t.readSafe i2c.trace reg value).2 % 65536
    i2c := { i2c with trace := i2c.trace ++ [BusOp.read reg] } }

/-- Modelled from the spec: `I2C::writeSafe(reg, value)`: one write access
carrying the whole register value is recorded. -/
def I2C.writeSafe (t : Transport) (i2c : I2C) (reg : Nat) (value : Nat) : WriteResult :=
  { err := t.writeSafe i2c.trace reg value
    i2c := { i2c with trace := i2c.trace ++ [BusOp.write reg value] } }

/-- Modelled from the spec: `I2C::setErrSnooze`. -/
def I2C.setErrSnooze (i2c : I2C) (ms : Nat) : I2C := { i2c with errSnooze := ms }

/-- Modelled from the spec: `I2C::setEndianness`. -/
def I2C.setEndianness (i2c : I2C) (e : Endian) : I2C := { i2c with endianness := e }

/-! ## Transaction context -/

/-- Modelled from the spec: the ambient pin transaction `pin::Tx` (declared
in `pins.hpp`, not part of the driver source): a bit-flag type, the
"read already performed" flag and the single finalizer slot, which holds the
identity (address) of the registered device. -/
structure Tx where
  type : Nat
  readPerformed : Bool
  finalizer : Option Nat
deriving DecidableEq

/-- Modelled from the spec: flag `pin::Tx::Type::Read`. -/
def Tx.Read : Nat := 1

/-- Modelled from the spec: flag `pin::Tx::Type::Write`. -/
def Tx.Write : Nat := 2

/-- Modelled from the spec: `pin::Tx::Type::ReadWrite`, both flags. -/
def Tx.ReadWrite : Nat := 3

/-- Modelled from the spec: `Tx::getReadPerformed`. -/
def Tx.getReadPerformed (tx : Tx) : Bool := tx.readPerformed

/-- Modelled from the spec: `Tx::setReadPerformed`. -/
def Tx.setReadPerformed (tx : Tx) : Tx := { tx with readPerformed := true }

/-- Modelled from the spec: `Tx::getFinalizer`. -/
def Tx.getFinalizer (tx : Tx) : Option Nat := tx.finalizer

/-- Modelled from the spec: `Tx::setFinalizer`. -/
def Tx.setFinalizer (tx : Tx) (dev : Nat) : Tx := { tx with finalizer := some dev }

/-! ## The device -/

/-- The members of a `Pca95x5` object: its transport, the cached output port
and the cached direction map (both `uint16_t`). -/
structure Pca95x5 where
  _i2c : I2C
  _port : Nat
  _inputMap : Nat
deriving DecidableEq

/-- What a driver method works on: the object `*this`, its identity `this`,
and the ambient transaction `pin::Tx::current()` (absent outside any
transaction). -/
structure State where
  this : Nat
  dev : Pca95x5
  tx : Option Tx
deriving DecidableEq

/-- The `int` value `1 << pin`, as a 32-bit two's-complement bit pattern. -/
def shl1 (pin : Nat) : Nat := (1 <<< pin) % 4294967296

/-- The `int` value `~(1 << pin)`, as a 32-bit two's-complement bit pattern. -/
def notShl1 (pin : Nat) : Nat := 4294967295 - shl1 pin

/-- `Pca95x5::commit`: write the configuration register, then the output
register; the first failing write ends the call with its error. -/
def Pca95x5.commit (t : Transport) (s : State) : esp_err_t × State :=
  let w1 := s.dev._i2c.writeSafe t RegConfig s.dev._inputMap
  let s1 : State := { s with dev := { s.dev with _i2c := w1.i2c } }
  if w1.err ≠ ESP_OK then (w1.err, s1)
  else
    let w2 := s1.dev._i2c.writeSafe t RegOutput s1.dev._port
    let s2 : State := { s1 with dev := { s1.dev with _i2c := w2.i2c } }
    if w2.err ≠ ESP_OK then (w2.err, s2)
    else (ESP_OK, s2)

/-- `Pca95x5::readPin`: refresh the port cache from the input register when
there is no transaction or the transaction wants a read that has not been
done yet, then report bit `pin` of the cache. The second component is the
value assigned to the `bool &value` argument, if any. -/
def Pca95x5.readPin (t : Transport) (s : State) (pin : Nat) : esp_err_t × Option Bool × State :=
  let refresh : Bool :=
    match s.tx with
    | none => true
    | some tx => (tx.type &&& Tx.Read != 0) && !tx.getReadPerformed
  if refresh then
    let r := s.dev._i2c.readSafe t RegInput s.dev._port
    let s1 : State := { s with dev := { s.dev with _i2c := r.i2c, _port := r.value } }
    if r.err ≠ ESP_OK then (r.err, none, s1)
    else
      let s2 : State := { s1 with tx := s1.tx.map Tx.setReadPerformed }
      (ESP_OK, some (s2.dev._port &&& shl1 pin != 0), s2)
  else
    (ESP_OK, some (s.dev._port &&& shl1 pin != 0), s)

/-- The assignments `_port |= (1 << pin)` and `_port &= ~(1 << pin)` of
`writePin`, truncated to the 16-bit member. -/
def Pca95x5.setPortBit (dev : Pca95x5) (pin : Nat) (value : Bool) : Pca95x5 :=
  if value then { dev with _port := (dev._port ||| shl1 pin) % 65536 }
  else { dev with _port := (dev._port &&& notShl1 pin) % 65536 }

/-- The second half of `Pca95x5::writePin`, after the optional refresh:
change bit `pin` of the cache, then either commit at once (no transaction, or
one without the Write flag) or register the device as the finalizer when the
slot is empty. -/
def Pca95x5.writePinCached (t : Transport) (s : State) (pin : Nat) (value : Bool) :
    esp_err_t × State :=
  let s1 : State := { s with dev := s.dev.setPortBit pin value }
  match s1.tx with
  | none => Pca95x5.commit t s1
  | some tx =>
    if tx.type &&& Tx.Write = 0 then Pca95x5.commit t s1
    else if tx.getFinalizer.isNone then
      (ESP_OK, { s1 with tx := some (tx.setFinalizer s1.this) })
    else (ESP_OK, s1)

/-- `Pca95x5::writePin`: inside a transaction that wants a read which has not
been done yet, refresh the port cache from the input register first (a
failing read ends the call); then continue with `writePinCached`. -/
def Pca95x5.writePin (t : Transport) (s : State) (pin : Nat) (value : Bool) : esp_err_t × State :=
  let refresh : Bool :=
    match s.tx with
    | none => false
    | some tx => (tx.type &&& Tx.Read != 0) && !tx.getReadPerformed
  if refresh then
    let r := s.dev._i2c.readSafe t RegInput s.dev._port
    let s1 : State := { s with dev := { s.dev with _i2c := r.i2c, _port := r.value } }
    if r.err ≠ ESP_OK then (r.err, s1)
    else Pca95x5.writePinCached t { s1 with tx := s1.tx.map Tx.setReadPerformed } pin value
  else Pca95x5.writePinCached t s pin value

/-- `Pca95x5::setPinMode`: change bit `pin` of the direction map and write
the whole map to the configuration register. -/
def Pca95x5.setPinMode (t : Transport) (s : State) (pin : Nat) (input : Bool) : esp_err_t × State :=
  let m : Nat :=
    if input then (s.dev._inputMap ||| shl1 pin) % 65536
    else (s.dev._inputMap &&& notShl1 pin) % 65536
  let w := s.dev._i2c.writeSafe t RegConfig m
  let s1 : State := { s with dev := { s.dev with _inputMap := m, _i2c := w.i2c } }
  if w.err ≠ ESP_OK then (w.err, s1)
  else (ESP_OK, s1)

/-- `Pca95x5::init`: set up the transport, then seed the port cache from the
input register and the direction map from the configuration register. -/
def Pca95x5.init (t : Transport) (s : State) : esp_err_t × State :=
  let i0 := (s.dev._i2c.setErrSnooze 10000).setEndianness Endian.Little
  let r1 := i0.readSafe t RegInput s.dev._port
  let s1 : State := { s with dev := { s.dev with _i2c := r1.i2c, _port := r1.value } }
  if r1.err ≠ ESP_OK then (r1.err, s1)
  else
    let r2 := s1.dev._i2c.readSafe t RegConfig s1.dev._inputMap
    let s2 : State := { s1 with dev := { s1.dev with _i2c := r2.i2c, _inputMap := r2.value } }
    if r2.err ≠ ESP_OK then (r2.err, s2)
    else (ESP_OK, s2)

/-! ## The digital feature of one pin -/

/-- `pca95x5::Digital::setDirection` for the pin with index `id`. -/
def Digital.setDirection (t : Transport) (s : State) (id : Nat) (mode : gpio_mode_t) :
    esp_err_t × State :=
  match mode with
  | gpio_mode_t.GPIO_MODE_INPUT => (ESP_OK, (Pca95x5.setPinMode t s id true).2)
  | gpio_mode_t.GPIO_MODE_OUTPUT => (ESP_OK, (Pca95x5.setPinMode t s id false).2)
  | gpio_mode_t.GPIO_MODE_OUTPUT_OD => (ESP_OK, (Pca95x5.setPinMode t s id false).2)
  | gpio_mode_t.GPIO_MODE_INPUT_OUTPUT => (ESP_OK, (Pca95x5.setPinMode t s id false).2)
  | gpio_mode_t.GPIO_MODE_INPUT_OUTPUT_OD => (ESP_OK, (Pca95x5.setPinMode t s id false).2)
  | gpio_mode_t.GPIO_MODE_DISABLE => (ESP_FAIL, s)

/-- `pca95x5::Digital::setPull`. -/
def Digital.setPull (s : State) (pull : gpio_pull_mode_t) : esp_err_t × State :=
  if pull = gpio_pull_mode_t.GPIO_PULLUP_ONLY then (ESP_OK, s) else (ESP_FAIL, s)

/-- `pca95x5::Digital::read` for the pin with index `id`. -/
def Digital.read (t : Transport) (s : State) (id : Nat) : esp_err_t × Option Bool × State :=
  Pca95x5.readPin t s id

/-- `pca95x5::Digital::write` for the pin with index `id`. -/
def Digital.write (t : Transport) (s : State) (id : Nat) (value : Bool) : esp_err_t × State :=
  Pca95x5.writePin t s id value

/-! ## Sequences of calls -/

/-- One call of a driver method on the device. -/
inductive Call where
  | readPin (pin : Nat)
  | writePin (pin : Nat) (value : Bool)
  | setPinMode (pin : Nat) (input : Bool)
  | commit
deriving DecidableEq

/-- Perform one call: its error code, the value it delivered (for `readPin`)
and the state it leaves. -/
def Call.run (t : Transport) (s : State) : Call → esp_err_t × Option Bool × State
  | Call.readPin pin => Pca95x5.readPin t s pin
  | Call.writePin pin value => ((Pca95x5.writePin t s pin value).1, none, (Pca95x5.writePin t s pin value).2)
  | Call.setPinMode pin input =>
    ((Pca95x5.setPinMode t s pin input).1, none, (Pca95x5.setPinMode t s pin input).2)
  | Call.commit => ((Pca95x5.commit t s).1, none, (Pca95x5.commit t s).2)

/-- Perform the calls one after the other, whatever each returns: the list of
their results, in call order, and the final state. -/
def runCalls (t : Transport) (s : State) : List Call → List (esp_err_t × Option Bool) × State
  | [] => ([], s)
  | c :: cs =>
    (((c.run t s).1, (c.run t s).2.1) :: (runCalls t (c.run t s).2.2 cs).1,
      (runCalls t (c.run t s).2.2 cs).2)


/-! ## Vocabulary of the properties -/

/-- A bus that does not fail: every read and every write reports success. -/
def Transport.NeverFails (t : Transport) : Prop :=
  (∀ h reg cur, (t.readSafe h reg cur).1 = ESP_OK) ∧ (∀ h reg v, t.writeSafe h reg v = ESP_OK)

/-- Whether a bus access is a register write. -/
def BusOp.isWrite : BusOp → Bool
  | BusOp.read _ => false
  | BusOp.write _ _ => true

/-- Whether a bus access is a register read. -/
def BusOp.isRead : BusOp → Bool
  | BusOp.read _ => true
  | BusOp.write _ _ => false

/-- The bus accesses issued between an earlier state and a later one. -/
def issued (before after : State) : List BusOp :=
  after.dev._i2c.trace.drop before.dev._i2c.trace.length

/-- Level of line `i` after a list of `(pin, value)` bit changes applied in
order to a line whose level was `b`: each change to pin `i` replaces the
level, changes to other pins leave it. -/
def bitAfterWrites (b : Bool) (i : Nat) : List (Nat × Bool) → Bool
  | [] => b
  | w :: ws => bitAfterWrites (if w.1 = i then w.2 else b) i ws

/-- Whether a call is a `readPin` or a `writePin`. -/
def Call.isPinAccess : Call → Bool
  | Call.readPin _ => true
  | Call.writePin _ _ => true
  | Call.setPinMode _ _ => false
  | Call.commit => false

/-! ## Several devices sharing one transaction -/

/-- The devices of the system, by identity, and the ambient transaction they
share. -/
structure World where
  devs : Nat → Pca95x5
  tx : Option Tx

/-- One call `op.2` on the device with identity `op.1`; `t d` is the transport
behind device `d`. -/
def World.step (t : Nat → Transport) (w : World) (op : Nat × Call) : World :=
  { devs := Function.update w.devs op.1
      (op.2.run (t op.1) { this := op.1, dev := w.devs op.1, tx := w.tx }).2.2.dev
    tx := (op.2.run (t op.1) { this := op.1, dev := w.devs op.1, tx := w.tx }).2.2.tx }

/-- A sequence of calls, each on the device it names, in order. -/
def World.run (t : Nat → Transport) (w : World) (ops : List (Nat × Call)) : World :=
  ops.foldl (World.step t) w

/-- What may happen to a transaction's state between an earlier point `a` and a
later point `b`: the type is the same, a set read-performed flag is still set,
a registered finalizer is still the registered one. -/
def Tx.Preserved (a b : Tx) : Prop :=
  b.type = a.type ∧ (a.readPerformed = true → b.readPerformed = true) ∧
    (∀ d, a.finalizer = some d → b.finalizer = some d)

/-! ## The chip behind the bus and the end of a transaction -/

/-- Modelled from the spec: the expander chip as far as the driver can tell:
its output register, its configuration (direction) register, and the levels
applied from outside to its sixteen lines (the inversion register is not used
by the driver and is left out). -/
structure Chip where
  output : Nat
  config : Nat
  external : Nat
deriving DecidableEq

/-- Modelled from the spec: the input-status register reflects the electrical
state of the lines: a line configured as output (configuration bit clear)
carries the level of its output-register bit, a line configured as input
(configuration bit set) carries the level applied from outside. -/
def Chip.input (c : Chip) : Nat :=
  ((c.output &&& (65535 ^^^ (c.config % 65536))) ||| (c.external &&& c.config)) % 65536

/-- Modelled from the spec: the 16-bit value a register read delivers. -/
def Chip.read (c : Chip) (reg : Nat) : Nat :=
  if reg = RegInput then c.input
  else if reg = RegOutput then c.output % 65536
  else if reg = RegConfig then c.config % 65536
  else 0

/-- Modelled from the spec: the effect of one bus access on the chip: a write
to the output or configuration register replaces that register, every other
access leaves the chip as it is. -/
def Chip.apply (c : Chip) : BusOp → Chip
  | BusOp.read _ => c
  | BusOp.write reg v =>
    if reg = RegOutput then { c with output := v % 65536 }
    else if reg = RegConfig then { c with config := v % 65536 }
    else c

/-- The chip after a history of bus accesses. -/
def Chip.after (c : Chip) (hist : List BusOp) : Chip := hist.foldl Chip.apply c

/-- Modelled from the spec: a bus that never fails, behind which sits the chip
that was in state `c` before the first recorded access and whose registers
change only through the recorded writes. -/
def chipBus (c : Chip) : Transport :=
  { readSafe := fun hist reg _ => (ESP_OK, (c.after hist).read reg)
    writeSafe := fun _ _ _ => ESP_OK }

/-- Modelled from the spec: the end of the active transaction as this device
sees it: the framework invokes `commit()` of the registered finalizer once
(another device's finalizer does not touch this device), and no transaction is
active afterwards. -/
def endTx (t : Transport) (s : State) : State :=
  match s.tx with
  | none => s
  | some tx =>
    if tx.getFinalizer = some s.this then { (Pca95x5.commit t s).2 with tx := none }
    else { s with tx := none }

/-- The last two bus accesses of the device were the commit of its present
caches: configuration register with `inputMap`, output register with `port`. -/
def Pca95x5.Flushed (d : Pca95x5) : Prop :=
  ∃ pre, d._i2c.trace = pre ++ [BusOp.write 6 d._inputMap, BusOp.write 2 d._port]

/-! ## Sample transports and states -/

/-- A transport on which every access succeeds and every read delivers
`0x1234`. -/
def okBus : Transport :=
  { readSafe := fun _ _ _ => (ESP_OK, 0x1234)
    writeSafe := fun _ _ _ => ESP_OK }

/-- A transport on which every access fails; a failed read leaves its
destination as it was. -/
def deadBus : Transport :=
  { readSafe := fun _ _ cur => (ESP_FAIL, cur)
    writeSafe := fun _ _ _ => ESP_FAIL }

/-- A transport whose reads succeed (delivering `0x1234`) and whose writes
fail only on the output register. -/
def outputFailBus : Transport :=
  { readSafe := fun _ _ _ => (ESP_OK, 0x1234)
    writeSafe := fun _ reg _ => if reg = RegOutput then ESP_FAIL else ESP_OK }

/-- A transport object that has not issued any access yet. -/
def freshI2C : I2C := { errSnooze := 10000, endianness := Endian.Little, trace := [] }

/-- The device of the spec's scenario (all pins inputs, port cache zero),
identity `1`, outside any transaction. -/
def idleState : State :=
  { this := 1, dev := { _i2c := freshI2C, _port := 0, _inputMap := 0xFFFF }, tx := none }

/-! ## Bit-level facts about the masks -/

theorem shl1_eq_two_pow {pin : Nat} (h : pin < 32) : shl1 pin = 2 ^ pin := by
  unfold shl1
  rw [Nat.one_shiftLeft]
  have h32 : (4294967296 : Nat) = 2 ^ 32 := by norm_num
  rw [h32]
  exact Nat.mod_eq_of_lt (Nat.pow_lt_pow_right (by norm_num) h)

theorem notShl1_eq {pin : Nat} (h : pin < 32) : notShl1 pin = 2 ^ 32 - (2 ^ pin + 1) := by
  unfold notShl1
  rw [shl1_eq_two_pow h]
  have h32 : (4294967295 : Nat) = 2 ^ 32 - 1 := by norm_num
  rw [h32]
  omega

theorem testBit_or_shl1 (p : Nat) {pin : Nat} (hp : pin < 32) (i : Nat) :
    ((p ||| shl1 pin) % 65536).testBit i
      = (decide (i < 16) && (p.testBit i || decide (pin = i))) := by
  have h16 : (65536 : Nat) = 2 ^ 16 := by norm_num
  rw [h16, Nat.testBit_mod_two_pow, Nat.testBit_or, shl1_eq_two_pow hp, Nat.testBit_two_pow]

theorem testBit_and_notShl1 (p : Nat) {pin : Nat} (hp : pin < 32) (i : Nat) :
    ((p &&& notShl1 pin) % 65536).testBit i
      = (decide (i < 16) && (p.testBit i && !decide (pin = i))) := by
  have h16 : (65536 : Nat) = 2 ^ 16 := by norm_num
  rw [h16, Nat.testBit_mod_two_pow, Nat.testBit_and, notShl1_eq hp,
    Nat.testBit_two_pow_sub_succ (Nat.pow_lt_pow_right (by norm_num) hp), Nat.testBit_two_pow]
  by_cases h1 : i < 16
  · have h2 : i < 32 := by omega
    simp [h1, h2]
  · simp [h1]

theorem and_shl1_ne_zero (p : Nat) {pin : Nat} (hp : pin < 32) :
    (p &&& shl1 pin != 0) = p.testBit pin := by
  rw [shl1_eq_two_pow hp, Nat.and_two_pow]
  have hpos : 0 < 2 ^ pin := Nat.two_pow_pos pin
  cases p.testBit pin <;> simp [Nat.ne_of_gt hpos]

theorem setPortBit_port_lt (dev : Pca95x5) (pin : Nat) (value : Bool) :
    (dev.setPortBit pin value)._port < 65536 := by
  unfold Pca95x5.setPortBit
  cases value <;> simp <;> exact Nat.mod_lt _ (by norm_num)

theorem setPortBit_testBit (dev : Pca95x5) {pin : Nat} (hp : pin < 32) (value : Bool) (i : Nat) :
    (dev.setPortBit pin value)._port.testBit i
      = (decide (i < 16) && (if pin = i then value else dev._port.testBit i)) := by
  unfold Pca95x5.setPortBit
  cases value
  · simp only [Bool.false_eq_true, if_false]
    rw [testBit_and_notShl1 _ hp]
    by_cases h : pin = i <;> simp [h]
  · simp only [if_true]
    rw [testBit_or_shl1 _ hp]
    by_cases h : pin = i <;> simp [h]

theorem setPortBit_i2c (dev : Pca95x5) (pin : Nat) (value : Bool) :
    (dev.setPortBit pin value)._i2c = dev._i2c := by
  unfold Pca95x5.setPortBit
  cases value <;> rfl

theorem setPortBit_inputMap (dev : Pca95x5) (pin : Nat) (value : Bool) :
    (dev.setPortBit pin value)._inputMap = dev._inputMap := by
  unfold Pca95x5.setPortBit
  cases value <;> rfl

/-! ## commit -/

/-- C7: `commit()` writes the whole `inputMap` to the configuration register
(offset 6) first and the whole `port` to the output register (offset 2)
second; when the configuration write fails the output write is not issued and
that failure is returned; the call returns success exactly when both writes
succeed; `port` and `inputMap` (and the transaction) are left as they were. -/
theorem commit_writes_config_then_output (t : Transport) (s : State) :
    (Pca95x5.commit t s).2.dev._port = s.dev._port ∧
    (Pca95x5.commit t s).2.dev._inputMap = s.dev._inputMap ∧
    (Pca95x5.commit t s).2.tx = s.tx ∧
    (t.writeSafe s.dev._i2c.trace RegConfig s.dev._inputMap ≠ ESP_OK →
      (Pca95x5.commit t s).1 = t.writeSafe s.dev._i2c.trace RegConfig s.dev._inputMap ∧
      (Pca95x5.commit t s).2.dev._i2c.trace
        = s.dev._i2c.trace ++ [BusOp.write 6 s.dev._inputMap]) ∧
    (t.writeSafe s.dev._i2c.trace RegConfig s.dev._inputMap = ESP_OK →
      (Pca95x5.commit t s).1
        = t.writeSafe (s.dev._i2c.trace ++ [BusOp.write 6 s.dev._inputMap])
            RegOutput s.dev._port ∧
      (Pca95x5.commit t s).2.dev._i2c.trace
        = s.dev._i2c.trace ++ [BusOp.write 6 s.dev._inputMap, BusOp.write 2 s.dev._port]) ∧
    ((Pca95x5.commit t s).1 = ESP_OK ↔
      t.writeSafe s.dev._i2c.trace RegConfig s.dev._inputMap = ESP_OK ∧
      t.writeSafe (s.dev._i2c.trace ++ [BusOp.write 6 s.dev._inputMap])
        RegOutput s.dev._port = ESP_OK) := by
  unfold Pca95x5.commit
  simp only [I2C.writeSafe, RegConfig, RegOutput]
  by_cases h1 : t.writeSafe s.dev._i2c.trace 6 s.dev._inputMap = ESP_OK
  · by_cases h2 : t.writeSafe (s.dev._i2c.trace ++ [BusOp.write 6 s.dev._inputMap]) 2
        s.dev._port = ESP_OK
    · simp [h1, h2]
    · simp [h1, h2]
  · simp [h1]

/-- C7 at concrete inputs: on a dead bus `commit()` stops after the
configuration write; on a bus whose output write fails both writes are issued
and the output failure is returned. -/
theorem commit_writes_config_then_output_witness :
    Pca95x5.commit deadBus idleState
      = (ESP_FAIL, { idleState with
          dev := { idleState.dev with
            _i2c := { freshI2C with trace := [BusOp.write 6 0xFFFF] } } }) ∧
    Pca95x5.commit outputFailBus idleState
      = (ESP_FAIL, { idleState with
          dev := { idleState.dev with
            _i2c := { freshI2C with trace := [BusOp.write 6 0xFFFF, BusOp.write 2 0] } } }) ∧
    (Pca95x5.commit okBus idleState).1 = ESP_OK := by
  have h := commit_writes_config_then_output okBus idleState
  exact ⟨by decide, by decide, h.2.2.2.2.2.2 ⟨by decide, by decide⟩⟩

/-! ## setPinMode -/

theorem setPinMode_snd (t : Transport) (s : State) (pin : Nat) (input : Bool) :
    (Pca95x5.setPinMode t s pin input).2
      = { s with dev := { s.dev with
            _inputMap := if input then (s.dev._inputMap ||| shl1 pin) % 65536
                         else (s.dev._inputMap &&& notShl1 pin) % 65536
            _i2c := { s.dev._i2c with
              trace := s.dev._i2c.trace ++
                [BusOp.write 6 (if input then (s.dev._inputMap ||| shl1 pin) % 65536
                                else (s.dev._inputMap &&& notShl1 pin) % 65536)] } } } := by
  unfold Pca95x5.setPinMode
  simp only [I2C.writeSafe, RegConfig]
  split_ifs <;> rfl

theorem setPinMode_fst (t : Transport) (s : State) (pin : Nat) (input : Bool) :
    (Pca95x5.setPinMode t s pin input).1
      = t.writeSafe s.dev._i2c.trace RegConfig
          (if input then (s.dev._inputMap ||| shl1 pin) % 65536
           else (s.dev._inputMap &&& notShl1 pin) % 65536) := by
  unfold Pca95x5.setPinMode
  simp only [I2C.writeSafe]
  split_ifs with h1 h2 h3
  · rfl
  · exact (not_not.mp h2).symm
  · rfl
  · exact (not_not.mp h3).symm

theorem setPinMode_inputMap (t : Transport) (s : State) (pin : Nat) (input : Bool) :
    (Pca95x5.setPinMode t s pin input).2.dev._inputMap
      = if input then (s.dev._inputMap ||| shl1 pin) % 65536
        else (s.dev._inputMap &&& notShl1 pin) % 65536 := by
  rw [setPinMode_snd]

theorem setPinMode_testBit (t : Transport) (s : State) {pin : Nat} (hp : pin < 32)
    (input : Bool) (i : Nat) :
    (Pca95x5.setPinMode t s pin input).2.dev._inputMap.testBit i
      = (decide (i < 16) && (if pin = i then input else s.dev._inputMap.testBit i)) := by
  rw [setPinMode_inputMap]
  cases input
  · simp only [Bool.false_eq_true, if_false]
    rw [testBit_and_notShl1 _ hp]
    by_cases h : pin = i <;> simp [h]
  · simp only [if_true]
    rw [testBit_or_shl1 _ hp]
    by_cases h : pin = i <;> simp [h]

theorem setPinMode_trace (t : Transport) (s : State) (pin : Nat) (input : Bool) :
    (Pca95x5.setPinMode t s pin input).2.dev._i2c.trace
      = s.dev._i2c.trace ++ [BusOp.write 6 (Pca95x5.setPinMode t s pin input).2.dev._inputMap] := by
  rw [setPinMode_snd]

/-- C8: `setPinMode(pin, input)` (the device's `setDirection`) with `pin` in
0..15, under any transaction context: bit `pin` of `inputMap` becomes `input`,
the other fifteen bits and the whole of `port` keep their values, the only bus
access is one write of the new `inputMap` to the configuration register
(offset 6), issued during the call, the transaction (finalizer included) is
untouched, and the call returns the error code of that write. -/
theorem setPinMode_immediate_config_write (t : Transport) (s : State) (pin : Nat)
    (input : Bool) (hp : pin < 16) :
    (Pca95x5.setPinMode t s pin input).2.dev._inputMap.testBit pin = input ∧
    (∀ i, i < 16 → i ≠ pin →
      (Pca95x5.setPinMode t s pin input).2.dev._inputMap.testBit i
        = s.dev._inputMap.testBit i) ∧
    (Pca95x5.setPinMode t s pin input).2.dev._inputMap < 65536 ∧
    (Pca95x5.setPinMode t s pin input).2.dev._port = s.dev._port ∧
    (Pca95x5.setPinMode t s pin input).2.dev._i2c.trace
      = s.dev._i2c.trace
        ++ [BusOp.write 6 (Pca95x5.setPinMode t s pin input).2.dev._inputMap] ∧
    (Pca95x5.setPinMode t s pin input).2.tx = s.tx ∧
    (Pca95x5.setPinMode t s pin input).1
      = t.writeSafe s.dev._i2c.trace RegConfig
          (Pca95x5.setPinMode t s pin input).2.dev._inputMap := by
  have hp32 : pin < 32 := by omega
  refine ⟨?_, ?_, ?_, ?_, setPinMode_trace t s pin input, ?_, ?_⟩
  · rw [setPinMode_testBit t s hp32]
    simp [hp]
  · intro i hi hne
    rw [setPinMode_testBit t s hp32]
    simp [hi, Ne.symm hne]
  · rw [setPinMode_inputMap]
    split <;> exact Nat.mod_lt _ (by norm_num)
  · rw [setPinMode_snd]
  · rw [setPinMode_snd]
  · rw [setPinMode_fst, setPinMode_inputMap]

/-- C8 at a concrete input: pin 3 of the scenario device made an output inside
a Write transaction on a dead bus. -/
theorem setPinMode_immediate_config_write_witness :
    (Pca95x5.setPinMode deadBus
        { idleState with tx := some { type := Tx.Write, readPerformed := false, finalizer := none } }
        3 false).2.dev._inputMap.testBit 3 = false ∧
    (Pca95x5.setPinMode deadBus
        { idleState with tx := some { type := Tx.Write, readPerformed := false, finalizer := none } }
        3 false).2.dev._i2c.trace = [BusOp.write 6 0xFFF7] ∧
    (Pca95x5.setPinMode deadBus
        { idleState with tx := some { type := Tx.Write, readPerformed := false, finalizer := none } }
        3 false).1 = ESP_FAIL := by
  have h := setPinMode_immediate_config_write deadBus
    { idleState with tx := some { type := Tx.Write, readPerformed := false, finalizer := none } }
    3 false (by decide)
  exact ⟨h.1, by decide, by decide⟩

/-- C10: calling `setPinMode(pin, input)` a second time with the same
arguments (pin in 0..15) leaves `inputMap` as the first call left it, and the
second call still issues exactly one configuration-register write, carrying
that same `inputMap`. -/
theorem setPinMode_twice_same_inputMap (t : Transport) (s : State) (pin : Nat)
    (input : Bool) (hp : pin < 16) :
    (Pca95x5.setPinMode t (Pca95x5.setPinMode t s pin input).2 pin input).2.dev._inputMap
      = (Pca95x5.setPinMode t s pin input).2.dev._inputMap ∧
    (Pca95x5.setPinMode t (Pca95x5.setPinMode t s pin input).2 pin input).2.dev._i2c.trace
      = (Pca95x5.setPinMode t s pin input).2.dev._i2c.trace
        ++ [BusOp.write 6 (Pca95x5.setPinMode t s pin input).2.dev._inputMap] := by
  have hp32 : pin < 32 := by omega
  have hmap :
      (Pca95x5.setPinMode t (Pca95x5.setPinMode t s pin input).2 pin input).2.dev._inputMap
        = (Pca95x5.setPinMode t s pin input).2.dev._inputMap := by
    apply Nat.eq_of_testBit_eq
    intro i
    rw [setPinMode_testBit t _ hp32, setPinMode_testBit t s hp32]
    by_cases h : pin = i <;> by_cases h16 : i < 16 <;> simp [h, h16]
  refine ⟨hmap, ?_⟩
  rw [setPinMode_trace t (Pca95x5.setPinMode t s pin input).2 pin input, hmap]

/-- C10 at a concrete input: pin 3 of the scenario device made an output
twice. -/
theorem setPinMode_twice_same_inputMap_witness :
    (Pca95x5.setPinMode okBus (Pca95x5.setPinMode okBus idleState 3 false).2 3 false).2.dev._inputMap
      = 0xFFF7 ∧
    (Pca95x5.setPinMode okBus (Pca95x5.setPinMode okBus idleState 3 false).2 3 false).2.dev._i2c.trace
      = [BusOp.write 6 0xFFF7, BusOp.write 6 0xFFF7] := by
  have h := setPinMode_twice_same_inputMap okBus idleState 3 false (by decide)
  exact ⟨h.1.trans (by decide), h.2.trans (by decide)⟩

/-! ## readPin -/

theorem readPin_no_tx (t : Transport) (s : State) (pin : Nat) (h : s.tx = none) :
    (Pca95x5.readPin t s pin).2.2.dev._i2c.trace = s.dev._i2c.trace ++ [BusOp.read 0] ∧
    (Pca95x5.readPin t s pin).2.2.dev._port
      = (t.readSafe s.dev._i2c.trace RegInput s.dev._port).2 % 65536 ∧
    (Pca95x5.readPin t s pin).2.2.tx = none := by
  unfold Pca95x5.readPin
  simp only [h, I2C.readSafe, RegInput]
  split_ifs <;> simp_all

theorem readPin_refresh (t : Transport) (s : State) (pin : Nat) (tx : Tx)
    (h : s.tx = some tx) (hr : tx.type &&& Tx.Read ≠ 0) (hf : tx.readPerformed = false) :
    (Pca95x5.readPin t s pin).2.2.dev._i2c.trace = s.dev._i2c.trace ++ [BusOp.read 0] ∧
    (Pca95x5.readPin t s pin).2.2.dev._port
      = (t.readSafe s.dev._i2c.trace RegInput s.dev._port).2 % 65536 ∧
    ((t.readSafe s.dev._i2c.trace RegInput s.dev._port).1 = ESP_OK →
      (Pca95x5.readPin t s pin).1 = ESP_OK ∧
      (Pca95x5.readPin t s pin).2.1
        = some ((t.readSafe s.dev._i2c.trace RegInput s.dev._port).2 % 65536 &&& shl1 pin != 0) ∧
      (Pca95x5.readPin t s pin).2.2.tx = some { tx with readPerformed := true }) := by
  unfold Pca95x5.readPin
  simp only [h, I2C.readSafe, RegInput, Tx.getReadPerformed, hf]
  have hb : (tx.type &&& Tx.Read != 0) = true := by simpa using hr
  simp only [hb]
  split_ifs <;> simp_all [Tx.setReadPerformed]

theorem readPin_cached (t : Transport) (s : State) (pin : Nat) (tx : Tx)
    (h : s.tx = some tx) (hc : tx.type &&& Tx.Read = 0 ∨ tx.readPerformed = true) :
    Pca95x5.readPin t s pin = (ESP_OK, some (s.dev._port &&& shl1 pin != 0), s) := by
  unfold Pca95x5.readPin
  simp only [h, Tx.getReadPerformed]
  rcases hc with hc | hc
  · simp [hc]
  · simp [hc]

/-- C6: `readPin(pin)` (pin in 0..15) reads the bus exactly when there is no
active transaction, or the transaction's type includes Read and its
read-performed flag is unset: in that case the call issues one read of the
input-status register (offset 0) and nothing else, and `port` is overwritten
with what the read delivered; in every other case (no Read flag, or the flag
already set, by whichever device) the call leaves the whole state, bus trace
included, as it was and returns success with bit `pin` of the cached
`port`. -/
theorem readPin_reads_bus_iff_refresh_due (t : Transport) (s : State) (pin : Nat)
    (hp : pin < 16) :
    ((s.tx = none ∨ ∃ tx, s.tx = some tx ∧ tx.type &&& Tx.Read ≠ 0 ∧ tx.readPerformed = false) →
      (Pca95x5.readPin t s pin).2.2.dev._i2c.trace = s.dev._i2c.trace ++ [BusOp.read 0] ∧
      (Pca95x5.readPin t s pin).2.2.dev._port
        = (t.readSafe s.dev._i2c.trace RegInput s.dev._port).2 % 65536) ∧
    ((∃ tx, s.tx = some tx ∧ (tx.type &&& Tx.Read = 0 ∨ tx.readPerformed = true)) →
      Pca95x5.readPin t s pin = (ESP_OK, some (s.dev._port.testBit pin), s)) := by
  constructor
  · rintro (h | ⟨tx, h, hr, hf⟩)
    · exact ⟨(readPin_no_tx t s pin h).1, (readPin_no_tx t s pin h).2.1⟩
    · exact ⟨(readPin_refresh t s pin tx h hr hf).1, (readPin_refresh t s pin tx h hr hf).2.1⟩
  · rintro ⟨tx, h, hc⟩
    rw [readPin_cached t s pin tx h hc, and_shl1_ne_zero _ (by omega)]

/-- C6 at concrete inputs: outside a transaction `readPin` reads the bus; in
a Write-only transaction, and in a Read transaction whose flag is already
set, it answers from the cache without touching the bus. -/
theorem readPin_reads_bus_iff_refresh_due_witness :
    (Pca95x5.readPin okBus idleState 2).2.2.dev._i2c.trace = [BusOp.read 0] ∧
    (Pca95x5.readPin okBus idleState 2).2.2.dev._port = 0x1234 ∧
    Pca95x5.readPin okBus
        { idleState with tx := some { type := Tx.Write, readPerformed := false, finalizer := none } } 2
      = (ESP_OK, some false,
        { idleState with tx := some { type := Tx.Write, readPerformed := false, finalizer := none } }) ∧
    Pca95x5.readPin deadBus
        { idleState with tx := some { type := Tx.Read, readPerformed := true, finalizer := some 9 } } 2
      = (ESP_OK, some false,
        { idleState with tx := some { type := Tx.Read, readPerformed := true, finalizer := some 9 } }) := by
  have h1 := (readPin_reads_bus_iff_refresh_due okBus idleState 2 (by decide)).1 (Or.inl rfl)
  exact ⟨h1.1, h1.2.trans (by decide), by decide, by decide⟩

/-! ## writePin -/

theorem writePinCached_commit (t : Transport) (s : State) (pin : Nat) (value : Bool)
    (h : s.tx = none ∨ ∃ tx, s.tx = some tx ∧ tx.type &&& Tx.Write = 0) :
    Pca95x5.writePinCached t s pin value
      = Pca95x5.commit t { s with dev := s.dev.setPortBit pin value } := by
  unfold Pca95x5.writePinCached
  rcases h with h | ⟨tx, h, hw⟩
  · simp [h]
  · simp [h, hw]

theorem writePinCached_defer (t : Transport) (s : State) (pin : Nat) (value : Bool) (tx : Tx)
    (h : s.tx = some tx) (hw : tx.type &&& Tx.Write ≠ 0) :
    Pca95x5.writePinCached t s pin value
      = (ESP_OK, { s with
          dev := s.dev.setPortBit pin value
          tx := some (if tx.finalizer.isNone then { tx with finalizer := some s.this } else tx) }) := by
  unfold Pca95x5.writePinCached
  simp only [h, hw, if_false, Tx.getFinalizer, Tx.setFinalizer]
  split_ifs <;> rfl

theorem writePin_no_refresh (t : Transport) (s : State) (pin : Nat) (value : Bool)
    (h : s.tx = none ∨ ∃ tx, s.tx = some tx ∧ (tx.type &&& Tx.Read = 0 ∨ tx.readPerformed = true)) :
    Pca95x5.writePin t s pin value = Pca95x5.writePinCached t s pin value := by
  unfold Pca95x5.writePin
  rcases h with h | ⟨tx, h, hc | hc⟩
  · simp [h]
  · simp [h, hc]
  · simp [h, hc, Tx.getReadPerformed]

theorem writePin_refresh_ok (t : Transport) (s : State) (pin : Nat) (value : Bool) (tx : Tx)
    (h : s.tx = some tx) (hr : tx.type &&& Tx.Read ≠ 0) (hf : tx.readPerformed = false)
    (hok : (t.readSafe s.dev._i2c.trace RegInput s.dev._port).1 = ESP_OK) :
    Pca95x5.writePin t s pin value
      = Pca95x5.writePinCached t
          { s with
            dev := { s.dev with
              _i2c := { s.dev._i2c with trace := s.dev._i2c.trace ++ [BusOp.read 0] }
              _port := (t.readSafe s.dev._i2c.trace RegInput s.dev._port).2 % 65536 }
            tx := some { tx with readPerformed := true } } pin value := by
  unfold Pca95x5.writePin
  have hb : (tx.type &&& Tx.Read != 0) = true := by simpa using hr
  simp only [h, I2C.readSafe, Tx.getReadPerformed, hf, hb, hok]
  simp [Tx.setReadPerformed, RegInput]

theorem writePin_refresh_fail (t : Transport) (s : State) (pin : Nat) (value : Bool) (tx : Tx)
    (h : s.tx = some tx) (hr : tx.type &&& Tx.Read ≠ 0) (hf : tx.readPerformed = false)
    (hbad : (t.readSafe s.dev._i2c.trace RegInput s.dev._port).1 ≠ ESP_OK) :
    Pca95x5.writePin t s pin value
      = ((t.readSafe s.dev._i2c.trace RegInput s.dev._port).1,
          { s with
            dev := { s.dev with
              _i2c := { s.dev._i2c with trace := s.dev._i2c.trace ++ [BusOp.read 0] }
              _port := (t.readSafe s.dev._i2c.trace RegInput s.dev._port).2 % 65536 } }) := by
  unfold Pca95x5.writePin
  have hb : (tx.type &&& Tx.Read != 0) = true := by simpa using hr
  simp only [h, I2C.readSafe, Tx.getReadPerformed, hf, hb]
  simp only [RegInput] at hbad
  simp [hbad, RegInput]

theorem okBus_neverFails : okBus.NeverFails := ⟨fun _ _ _ => rfl, fun _ _ _ => rfl⟩

theorem commit_of_ok (t : Transport) (s : State)
    (h1 : t.writeSafe s.dev._i2c.trace RegConfig s.dev._inputMap = ESP_OK)
    (h2 : t.writeSafe (s.dev._i2c.trace ++ [BusOp.write 6 s.dev._inputMap]) RegOutput s.dev._port
      = ESP_OK) :
    Pca95x5.commit t s
      = (ESP_OK, { s with dev := { s.dev with _i2c := { s.dev._i2c with
          trace := s.dev._i2c.trace
            ++ [BusOp.write 6 s.dev._inputMap, BusOp.write 2 s.dev._port] } } }) := by
  unfold Pca95x5.commit
  simp only [I2C.writeSafe, RegConfig, RegOutput] at *
  simp [h1, h2]

theorem commit_of_neverFails (t : Transport) (s : State) (ht : t.NeverFails) :
    Pca95x5.commit t s
      = (ESP_OK, { s with dev := { s.dev with _i2c := { s.dev._i2c with
          trace := s.dev._i2c.trace
            ++ [BusOp.write 6 s.dev._inputMap, BusOp.write 2 s.dev._port] } } }) :=
  commit_of_ok t s (ht.2 _ _ _) (ht.2 _ _ _)

theorem writePinCached_commit_ok (t : Transport) (s : State) (pin : Nat) (value : Bool)
    (h : s.tx = none ∨ ∃ tx, s.tx = some tx ∧ tx.type &&& Tx.Write = 0) (ht : t.NeverFails) :
    Pca95x5.writePinCached t s pin value
      = (ESP_OK, { s with dev := { s.dev.setPortBit pin value with _i2c := { s.dev._i2c with
          trace := s.dev._i2c.trace
            ++ [BusOp.write 6 s.dev._inputMap,
                BusOp.write 2 (s.dev.setPortBit pin value)._port] } } }) := by
  rw [writePinCached_commit t s pin value h, commit_of_neverFails t _ ht]
  simp [setPortBit_i2c, setPortBit_inputMap]

/-! ## Sequences of reads in one transaction -/

theorem runCalls_readPin_cached (t : Transport) (s : State) (tx : Tx) (h : s.tx = some tx)
    (hf : tx.readPerformed = true) (ps : List Nat) :
    runCalls t s (ps.map Call.readPin)
      = (ps.map (fun q => (ESP_OK, some (s.dev._port &&& shl1 q != 0))), s) := by
  induction ps with
  | nil => rfl
  | cons p ps ih =>
    simp only [List.map_cons, runCalls, Call.run]
    rw [readPin_cached t s p tx h (Or.inr hf)]
    simp [ih]

/-- C2: in a transaction of type Read whose read-performed flag is unset, on a
bus that does not fail, a sequence of one or more `readPin` calls on the
device (pins in 0..15) issues exactly one bus access, a read of the
input-status register (offset 0), and issues it on the first call; every call
returns success with the corresponding bit of the value that read
delivered. -/
theorem readPin_sequence_reads_once (t : Transport) (s : State) (tx : Tx) (p : Nat)
    (ps : List Nat) (h : s.tx = some tx) (hty : tx.type = Tx.Read)
    (hf : tx.readPerformed = false) (hpins : ∀ q ∈ p :: ps, q < 16) (ht : t.NeverFails) :
    (Pca95x5.readPin t s p).2.2.dev._i2c.trace = s.dev._i2c.trace ++ [BusOp.read 0] ∧
    (runCalls t s ((p :: ps).map Call.readPin)).2.dev._i2c.trace
      = s.dev._i2c.trace ++ [BusOp.read 0] ∧
    (runCalls t s ((p :: ps).map Call.readPin)).1
      = (p :: ps).map (fun q =>
          (ESP_OK,
            some (((t.readSafe s.dev._i2c.trace RegInput s.dev._port).2 % 65536).testBit q))) := by
  have hr : tx.type &&& Tx.Read ≠ 0 := by rw [hty]; decide
  obtain ⟨htr, hport, hrest⟩ := readPin_refresh t s p tx h hr hf
  obtain ⟨herr, hval, htx⟩ := hrest (ht.1 _ _ _)
  have hrun := runCalls_readPin_cached t (Pca95x5.readPin t s p).2.2
    { tx with readPerformed := true } htx rfl ps
  refine ⟨htr, ?_, ?_⟩
  · simp only [List.map_cons, runCalls, Call.run]
    rw [hrun]
    exact htr
  · simp only [List.map_cons, runCalls, Call.run]
    rw [hrun, herr, hval, hport]
    simp only [List.cons.injEq, List.map_inj_left, Prod.mk.injEq, Option.some.injEq, true_and]
    refine ⟨and_shl1_ne_zero _ (by have := hpins p (by simp); omega), ?_⟩
    intro q hq
    exact and_shl1_ne_zero _ (by have := hpins q (by simp [hq]); omega)

/-- C2 at a concrete input: three reads of pins 2, 3 and 5 in a fresh Read
transaction, the bus delivering `0x1234`. -/
theorem readPin_sequence_reads_once_witness :
    (runCalls okBus
        { idleState with tx := some { type := Tx.Read, readPerformed := false, finalizer := none } }
        ([2, 3, 5].map Call.readPin)).2.dev._i2c.trace = [BusOp.read 0] ∧
    (runCalls okBus
        { idleState with tx := some { type := Tx.Read, readPerformed := false, finalizer := none } }
        ([2, 3, 5].map Call.readPin)).1
      = [(ESP_OK, some true), (ESP_OK, some false), (ESP_OK, some true)] := by
  have h := readPin_sequence_reads_once okBus
    { idleState with tx := some { type := Tx.Read, readPerformed := false, finalizer := none } }
    { type := Tx.Read, readPerformed := false, finalizer := none } 2 [3, 5] rfl rfl rfl
    (by decide) okBus_neverFails
  exact ⟨h.2.1, h.2.2.trans (by decide)⟩

/-! ## Sequences of writes in one transaction -/

theorem writePin_deferred (t : Transport) (s : State) (pin : Nat) (value : Bool) (tx : Tx)
    (h : s.tx = some tx) (hr : tx.type &&& Tx.Read = 0 ∨ tx.readPerformed = true)
    (hw : tx.type &&& Tx.Write ≠ 0) :
    Pca95x5.writePin t s pin value
      = (ESP_OK, { s with
          dev := s.dev.setPortBit pin value
          tx := some (if tx.finalizer.isNone then { tx with finalizer := some s.this } else tx) }) := by
  rw [writePin_no_refresh t s pin value (Or.inr ⟨tx, h, hr⟩),
    writePinCached_defer t s pin value tx h hw]

theorem runCalls_writePin_deferred (t : Transport) (ws : List (Nat × Bool)) :
    ∀ (s : State) (tx : Tx), s.tx = some tx →
      (tx.type &&& Tx.Read = 0 ∨ tx.readPerformed = true) → tx.type &&& Tx.Write ≠ 0 →
      (∀ w ∈ ws, w.1 < 16) →
      (runCalls t s (ws.map (fun w => Call.writePin w.1 w.2))).1
          = ws.map (fun _ => (ESP_OK, none)) ∧
      (runCalls t s (ws.map (fun w => Call.writePin w.1 w.2))).2.dev._i2c = s.dev._i2c ∧
      (runCalls t s (ws.map (fun w => Call.writePin w.1 w.2))).2.dev._inputMap
          = s.dev._inputMap ∧
      (∀ i, i < 16 →
        (runCalls t s (ws.map (fun w => Call.writePin w.1 w.2))).2.dev._port.testBit i
          = bitAfterWrites (s.dev._port.testBit i) i ws) ∧
      (ws ≠ [] → (runCalls t s (ws.map (fun w => Call.writePin w.1 w.2))).2.dev._port < 65536) ∧
      (runCalls t s (ws.map (fun w => Call.writePin w.1 w.2))).2.tx
          = some (if ws = [] then tx
                  else if tx.finalizer.isNone then { tx with finalizer := some s.this } else tx) := by
  induction ws with
  | nil =>
    intro s tx h _ _ _
    simp [runCalls, bitAfterWrites, h]
  | cons w ws ih =>
    intro s tx h hr hw hpins
    have hw1 : w.1 < 32 := by have := hpins w (by simp); omega
    have hstep := writePin_deferred t s w.1 w.2 tx h hr hw
    have hrest : ∀ w2 ∈ ws, w2.1 < 16 := fun w2 hw2 => hpins w2 (by simp [hw2])
    have hih := ih
      { s with
        dev := s.dev.setPortBit w.1 w.2
        tx := some (if tx.finalizer.isNone then { tx with finalizer := some s.this } else tx) }
      (if tx.finalizer.isNone then { tx with finalizer := some s.this } else tx) rfl
      (by split_ifs <;> exact hr) (by split_ifs <;> exact hw) hrest
    simp only [List.map_cons, runCalls, Call.run, hstep]
    obtain ⟨h1, h2, h3, h4, h5, h6⟩ := hih
    refine ⟨?_, ?_, ?_, ?_, ?_, ?_⟩
    · rw [h1]
    · rw [h2]; exact setPortBit_i2c _ _ _
    · rw [h3]; exact setPortBit_inputMap _ _ _
    · intro i hi
      rw [h4 i hi]
      simp only [bitAfterWrites]
      rw [setPortBit_testBit _ hw1]
      simp [hi]
    · intro _
      by_cases hnil : ws = []
      · subst hnil
        simp only [List.map_nil, runCalls]
        exact setPortBit_port_lt _ _ _
      · exact h5 hnil
    · rw [h6]
      by_cases hnil : ws = []
      · simp [hnil]
      · simp only [hnil, if_false, List.cons_ne_nil]
        split_ifs <;> simp_all

theorem commit_trace_of_config_ok (t : Transport) (s : State)
    (h1 : t.writeSafe s.dev._i2c.trace RegConfig s.dev._inputMap = ESP_OK) :
    (Pca95x5.commit t s).2.dev._i2c.trace
      = s.dev._i2c.trace ++ [BusOp.write 6 s.dev._inputMap, BusOp.write 2 s.dev._port] := by
  unfold Pca95x5.commit
  simp only [I2C.writeSafe, RegConfig, RegOutput] at *
  simp only [h1, ne_eq, not_true_eq_false, if_false]
  split_ifs <;> simp

/-- C1 (amended): in a fresh transaction of type Write (no finalizer yet), a
sequence of one or more `writePin` calls on the device, pins in 0..15, issues
no bus access at all; every call returns success; the device ends up as the
transaction's finalizer; `inputMap` is unchanged and each of the sixteen bits
of `port` holds the initial bit with the bit changes applied in call order.
When the configuration-register write of the finalizer's `commit()` succeeds,
that `commit()` issues exactly two register writes: the configuration register
(offset 6) with `inputMap`, then the output register (offset 2) with that
`port`. -/
theorem writePin_sequence_coalesced (t : Transport) (s : State) (tx : Tx) (w : Nat × Bool)
    (ws : List (Nat × Bool)) (h : s.tx = some tx) (hty : tx.type = Tx.Write)
    (hfin : tx.finalizer = none) (hpins : ∀ x ∈ w :: ws, x.1 < 16) :
    (runCalls t s ((w :: ws).map (fun x => Call.writePin x.1 x.2))).2.dev._i2c.trace
      = s.dev._i2c.trace ∧
    (runCalls t s ((w :: ws).map (fun x => Call.writePin x.1 x.2))).1
      = (w :: ws).map (fun _ => (ESP_OK, none)) ∧
    (runCalls t s ((w :: ws).map (fun x => Call.writePin x.1 x.2))).2.tx
      = some { tx with finalizer := some s.this } ∧
    (runCalls t s ((w :: ws).map (fun x => Call.writePin x.1 x.2))).2.dev._inputMap
      = s.dev._inputMap ∧
    (∀ i, i < 16 →
      (runCalls t s ((w :: ws).map (fun x => Call.writePin x.1 x.2))).2.dev._port.testBit i
        = bitAfterWrites (s.dev._port.testBit i) i (w :: ws)) ∧
    (runCalls t s ((w :: ws).map (fun x => Call.writePin x.1 x.2))).2.dev._port < 65536 ∧
    (t.writeSafe s.dev._i2c.trace RegConfig s.dev._inputMap = ESP_OK →
      (Pca95x5.commit t
          (runCalls t s ((w :: ws).map (fun x => Call.writePin x.1 x.2))).2).2.dev._i2c.trace
        = s.dev._i2c.trace
          ++ [BusOp.write 6 s.dev._inputMap,
              BusOp.write 2
                (runCalls t s ((w :: ws).map (fun x => Call.writePin x.1 x.2))).2.dev._port]) := by
  have hr : tx.type &&& Tx.Read = 0 := by rw [hty]; decide
  have hw : tx.type &&& Tx.Write ≠ 0 := by rw [hty]; decide
  obtain ⟨h1, h2, h3, h4, h5, h6⟩ :=
    runCalls_writePin_deferred t (w :: ws) s tx h (Or.inl hr) hw hpins
  refine ⟨by rw [h2], h1, ?_, h3, h4, h5 (List.cons_ne_nil _ _), ?_⟩
  · rw [h6]
    simp [hfin]
  · intro hcfg
    rw [commit_trace_of_config_ok t _ (by rw [h2, h3]; exact hcfg), h2, h3]

/-- C1 (amended) at a concrete input: pin 3 raised, pin 5 raised, pin 3
lowered again, in a fresh Write transaction; then the finalizer's commit. -/
theorem writePin_sequence_coalesced_witness :
    (runCalls okBus
        { idleState with tx := some { type := Tx.Write, readPerformed := false, finalizer := none } }
        ([(3, true), (5, true), (3, false)].map (fun x => Call.writePin x.1 x.2))).2.dev._i2c.trace
      = [] ∧
    (Pca95x5.commit okBus
        (runCalls okBus
          { idleState with tx := some { type := Tx.Write, readPerformed := false, finalizer := none } }
          ([(3, true), (5, true), (3, false)].map
            (fun x => Call.writePin x.1 x.2))).2).2.dev._i2c.trace
      = [BusOp.write 6 0xFFFF, BusOp.write 2 32] := by
  have h := writePin_sequence_coalesced okBus
    { idleState with tx := some { type := Tx.Write, readPerformed := false, finalizer := none } }
    { type := Tx.Write, readPerformed := false, finalizer := none } (3, true)
    [(5, true), (3, false)] rfl rfl rfl (by decide)
  exact ⟨h.1, (h.2.2.2.2.2.2 rfl).trans (by decide)⟩

/-- C1 as stated fails when the bus fails: after one deferred `writePin(3,
true)` in a fresh Write transaction, the finalizer's `commit()` on a dead bus
issues a single register write (the configuration register), not two, and
returns failure. -/
theorem writePin_sequence_commit_one_write_on_dead_bus :
    Pca95x5.commit deadBus
        (runCalls deadBus
          { idleState with tx := some { type := Tx.Write, readPerformed := false, finalizer := none } }
          [Call.writePin 3 true]).2
      = (ESP_FAIL,
          { this := 1
            dev := { _i2c := { freshI2C with trace := [BusOp.write 6 0xFFFF] }
                     _port := 8, _inputMap := 0xFFFF }
            tx := some { type := Tx.Write, readPerformed := false, finalizer := some 1 } }) := by
  decide

/-! ## Refresh before a write -/

theorem run_pinAccess_no_bus (t : Transport) (s : State) (tx : Tx) (c : Call)
    (h : s.tx = some tx) (hf : tx.readPerformed = true) (hw : tx.type &&& Tx.Write ≠ 0)
    (hc : c.isPinAccess = true) :
    (c.run t s).2.2.dev._i2c = s.dev._i2c ∧
    ∃ tx1, (c.run t s).2.2.tx = some tx1 ∧ tx1.readPerformed = true ∧
      tx1.type &&& Tx.Write ≠ 0 := by
  cases c with
  | readPin pin =>
    simp only [Call.run]
    rw [readPin_cached t s pin tx h (Or.inr hf)]
    exact ⟨rfl, tx, h, hf, hw⟩
  | writePin pin value =>
    simp only [Call.run]
    rw [writePin_deferred t s pin value tx h (Or.inr hf) hw]
    refine ⟨setPortBit_i2c _ _ _, _, rfl, ?_, ?_⟩
    · split_ifs <;> exact hf
    · split_ifs <;> exact hw
  | setPinMode pin input => simp [Call.isPinAccess] at hc
  | commit => simp [Call.isPinAccess] at hc

theorem runCalls_pinAccess_no_bus (t : Transport) (calls : List Call) :
    ∀ (s : State) (tx : Tx), s.tx = some tx → tx.readPerformed = true →
      tx.type &&& Tx.Write ≠ 0 → (∀ c ∈ calls, c.isPinAccess = true) →
      (runCalls t s calls).2.dev._i2c = s.dev._i2c := by
  induction calls with
  | nil => intro s tx _ _ _ _; rfl
  | cons c cs ih =>
    intro s tx h hf hw hcs
    obtain ⟨h1, tx1, h2, h3, h4⟩ := run_pinAccess_no_bus t s tx c h hf hw (hcs c (by simp))
    simp only [runCalls]
    rw [ih (c.run t s).2.2 tx1 h2 h3 h4 (fun c2 hc2 => hcs c2 (by simp [hc2])), h1]

/-- C3 (amended): in a ReadWrite transaction whose read-performed flag is
unset, `writePin(pin, value)` with pin in 0..15 issues exactly one bus access,
a read of the input-status register (offset 0), and no register write. When
that read succeeds the call returns success, `port` is the value read with bit
`pin` set to `value`, the read-performed flag is set, and no later `writePin`
or `readPin` of the same transaction touches the bus. -/
theorem writePin_refreshes_before_write (t : Transport) (s : State) (tx : Tx) (pin : Nat)
    (value : Bool) (later : List Call) (h : s.tx = some tx) (hty : tx.type = Tx.ReadWrite)
    (hf : tx.readPerformed = false) (hp : pin < 16)
    (hlater : ∀ c ∈ later, c.isPinAccess = true) :
    (Pca95x5.writePin t s pin value).2.dev._i2c.trace = s.dev._i2c.trace ++ [BusOp.read 0] ∧
    ((t.readSafe s.dev._i2c.trace RegInput s.dev._port).1 = ESP_OK →
      (Pca95x5.writePin t s pin value).1 = ESP_OK ∧
      (∀ i, i < 16 →
        (Pca95x5.writePin t s pin value).2.dev._port.testBit i
          = if i = pin then value
            else ((t.readSafe s.dev._i2c.trace RegInput s.dev._port).2 % 65536).testBit i) ∧
      (Pca95x5.writePin t s pin value).2.dev._port < 65536 ∧
      (∃ tx1, (Pca95x5.writePin t s pin value).2.tx = some tx1 ∧ tx1.readPerformed = true) ∧
      (runCalls t (Pca95x5.writePin t s pin value).2 later).2.dev._i2c.trace
        = s.dev._i2c.trace ++ [BusOp.read 0]) := by
  have hr : tx.type &&& Tx.Read ≠ 0 := by rw [hty]; decide
  have hw : tx.type &&& Tx.Write ≠ 0 := by rw [hty]; decide
  have htr : (Pca95x5.writePin t s pin value).2.dev._i2c.trace
      = s.dev._i2c.trace ++ [BusOp.read 0] := by
    by_cases hok : (t.readSafe s.dev._i2c.trace RegInput s.dev._port).1 = ESP_OK
    · rw [writePin_refresh_ok t s pin value tx h hr hf hok,
        writePinCached_defer t _ pin value { tx with readPerformed := true } rfl hw]
      simp [setPortBit_i2c]
    · rw [writePin_refresh_fail t s pin value tx h hr hf hok]
  refine ⟨htr, ?_⟩
  intro hok
  have hstep : Pca95x5.writePin t s pin value = _ :=
    (writePin_refresh_ok t s pin value tx h hr hf hok).trans
      (writePinCached_defer t _ pin value { tx with readPerformed := true } rfl hw)
  refine ⟨by rw [hstep], ?_, ?_, ?_, ?_⟩
  · intro i hi
    rw [hstep]
    simp only []
    rw [setPortBit_testBit _ (by omega)]
    by_cases hpi : pin = i
    · simp [hi, hpi]
    · simp [hi, hpi, Ne.symm hpi]
  · rw [hstep]
    exact setPortBit_port_lt _ _ _
  · rw [hstep]
    refine ⟨_, rfl, ?_⟩
    split_ifs <;> rfl
  · have hinv : ∃ tx1, (Pca95x5.writePin t s pin value).2.tx = some tx1 ∧
        tx1.readPerformed = true ∧ tx1.type &&& Tx.Write ≠ 0 := by
      rw [hstep]
      refine ⟨_, rfl, ?_, ?_⟩
      · split_ifs <;> rfl
      · split_ifs <;> exact hw
    obtain ⟨tx1, h1, h2, h3⟩ := hinv
    rw [runCalls_pinAccess_no_bus t later _ tx1 h1 h2 h3 hlater, htr]

/-- C3 (amended) at a concrete input: `writePin(3, true)` in a fresh ReadWrite
transaction, the bus delivering `0x1234`, followed by a read of pin 3, a write
of pin 0 and a read of pin 0. -/
theorem writePin_refreshes_before_write_witness :
    (Pca95x5.writePin okBus
        { idleState with tx := some { type := Tx.ReadWrite, readPerformed := false, finalizer := none } }
        3 true).2.dev._port = 0x123C ∧
    (runCalls okBus
        (Pca95x5.writePin okBus
          { idleState with tx := some { type := Tx.ReadWrite, readPerformed := false, finalizer := none } }
          3 true).2
        [Call.readPin 3, Call.writePin 0 true, Call.readPin 0]).2.dev._i2c.trace
      = [BusOp.read 0] := by
  have h := writePin_refreshes_before_write okBus
    { idleState with tx := some { type := Tx.ReadWrite, readPerformed := false, finalizer := none } }
    { type := Tx.ReadWrite, readPerformed := false, finalizer := none } 3 true
    [Call.readPin 3, Call.writePin 0 true, Call.readPin 0] rfl rfl rfl (by decide)
    (by decide)
  exact ⟨by decide, (h.2 rfl).2.2.2.2⟩

/-- C3 as stated fails when the refresh read fails: on a dead bus,
`writePin(3, true)` in a fresh ReadWrite transaction returns failure, leaves
the read-performed flag unset and bit 3 of `port` clear, and a following
`readPin(3)` of the same transaction reads the bus again. -/
theorem writePin_refresh_failure_leaves_flag_unset :
    Pca95x5.writePin deadBus
        { idleState with tx := some { type := Tx.ReadWrite, readPerformed := false, finalizer := none } }
        3 true
      = (ESP_FAIL,
          { this := 1
            dev := { _i2c := { freshI2C with trace := [BusOp.read 0] }
                     _port := 0, _inputMap := 0xFFFF }
            tx := some { type := Tx.ReadWrite, readPerformed := false, finalizer := none } }) ∧
    (Pca95x5.readPin deadBus
        (Pca95x5.writePin deadBus
          { idleState with tx := some { type := Tx.ReadWrite, readPerformed := false, finalizer := none } }
          3 true).2 3).2.2.dev._i2c.trace
      = [BusOp.read 0, BusOp.read 0] := by
  decide

/-! ## Deferred writes and the finalizer slot -/

/-- C4 as stated fails when another device holds the finalizer slot: in a
Write transaction in which device 7 is the registered finalizer,
`writePin(0, true)` on device 1 returns success and changes the cached `port`
of device 1, but issues no bus access and leaves device 7 in the slot, so
device 1 is not registered. And a registered device's `commit()` does not get
the cached `port` to the chip when the bus fails: on a dead bus it stops after
the failed configuration write. -/
theorem writePin_not_registered_when_slot_taken :
    Pca95x5.writePin okBus
        { idleState with tx := some { type := Tx.Write, readPerformed := false, finalizer := some 7 } }
        0 true
      = (ESP_OK,
          { this := 1
            dev := { _i2c := freshI2C, _port := 1, _inputMap := 0xFFFF }
            tx := some { type := Tx.Write, readPerformed := false, finalizer := some 7 } }) ∧
    (endTx deadBus
        (Pca95x5.writePin deadBus
          { idleState with tx := some { type := Tx.Write, readPerformed := false, finalizer := none } }
          0 true).2).dev._i2c.trace
      = [BusOp.write 6 0xFFFF] := by
  decide

/-! ## The digital feature -/

/-- C9: on a dead bus, `Digital::setDirection(GPIO_MODE_INPUT)` for pin 3
returns success although the delegated `setPinMode(3, true)` issued the
configuration write and returned failure. -/
theorem digital_setDirection_hides_bus_failure :
    (Digital.setDirection deadBus idleState 3 gpio_mode_t.GPIO_MODE_INPUT).1 = ESP_OK ∧
    (Pca95x5.setPinMode deadBus idleState 3 true).1 = ESP_FAIL ∧
    (Digital.setDirection deadBus idleState 3 gpio_mode_t.GPIO_MODE_INPUT).2.dev._i2c.trace
      = [BusOp.write 6 0xFFFF] := by
  decide

/-! ## The scenario of the specification -/

/-- C12: from `port = 0x0000`, `inputMap = 0xFFFF`, outside any transaction
and on a bus that does not fail, `setPinMode(3, false)` yields
`inputMap = 0xFFF7` and appends exactly one bus access, a write of `0xFFF7` to
the configuration register; a following `writePin(3, true)` yields
`port = 0x0008` and appends exactly two writes, the configuration register
with `0xFFF7` and then the output register with `0x0008`. -/
theorem scenario_setDirection_then_write (t : Transport) (s : State) (ht : t.NeverFails)
    (hport : s.dev._port = 0) (hmap : s.dev._inputMap = 0xFFFF) (htx : s.tx = none) :
    (Pca95x5.setPinMode t s 3 false).1 = ESP_OK ∧
    (Pca95x5.setPinMode t s 3 false).2.dev._inputMap = 0xFFF7 ∧
    (Pca95x5.setPinMode t s 3 false).2.dev._i2c.trace
      = s.dev._i2c.trace ++ [BusOp.write 6 0xFFF7] ∧
    (Pca95x5.writePin t (Pca95x5.setPinMode t s 3 false).2 3 true).1 = ESP_OK ∧
    (Pca95x5.writePin t (Pca95x5.setPinMode t s 3 false).2 3 true).2.dev._port = 0x0008 ∧
    (Pca95x5.writePin t (Pca95x5.setPinMode t s 3 false).2 3 true).2.dev._inputMap = 0xFFF7 ∧
    (Pca95x5.writePin t (Pca95x5.setPinMode t s 3 false).2 3 true).2.dev._i2c.trace
      = s.dev._i2c.trace
        ++ [BusOp.write 6 0xFFF7] ++ [BusOp.write 6 0xFFF7, BusOp.write 2 0x0008] := by
  have hm : (Pca95x5.setPinMode t s 3 false).2.dev._inputMap = 0xFFF7 := by
    rw [setPinMode_inputMap, hmap]; decide
  have htr : (Pca95x5.setPinMode t s 3 false).2.dev._i2c.trace
      = s.dev._i2c.trace ++ [BusOp.write 6 0xFFF7] := by
    rw [setPinMode_trace, hm]
  have hp1 : (Pca95x5.setPinMode t s 3 false).2.dev._port = 0 := by
    rw [setPinMode_snd]; exact hport
  have htx1 : (Pca95x5.setPinMode t s 3 false).2.tx = none := by
    rw [setPinMode_snd]; exact htx
  have hbit : ((Pca95x5.setPinMode t s 3 false).2.dev.setPortBit 3 true)._port = 8 := by
    unfold Pca95x5.setPortBit
    simp only [if_true, hp1]
    decide
  have hw : Pca95x5.writePin t (Pca95x5.setPinMode t s 3 false).2 3 true = _ :=
    (writePin_no_refresh t _ 3 true (Or.inl htx1)).trans
      (writePinCached_commit_ok t _ 3 true (Or.inl htx1) ht)
  refine ⟨?_, hm, htr, ?_, ?_, ?_, ?_⟩
  · rw [setPinMode_fst]; exact ht.2 _ _ _
  · rw [hw]
  · rw [hw]; exact hbit
  · rw [hw]; simp only []; rw [setPortBit_inputMap, hm]
  · rw [hw]; simp only []; rw [htr, hm, hbit, List.append_assoc]

/-- C12 at the scenario device on a bus that never fails. -/
theorem scenario_setDirection_then_write_witness :
    (Pca95x5.setPinMode okBus idleState 3 false).2.dev._i2c.trace = [BusOp.write 6 0xFFF7] ∧
    (Pca95x5.writePin okBus (Pca95x5.setPinMode okBus idleState 3 false).2 3 true).2.dev._i2c.trace
      = [BusOp.write 6 0xFFF7, BusOp.write 6 0xFFF7, BusOp.write 2 0x0008] := by
  have h := scenario_setDirection_then_write okBus idleState okBus_neverFails rfl rfl rfl
  exact ⟨h.2.2.1, h.2.2.2.2.2.2⟩

/-! ## Mode and pull mapping of the digital feature -/

/-- C13: `Digital::setDirection(mode)` delegates to `setPinMode` with
`input = true` for the input mode and with `input = false` for each of
output, output-open-drain, input-output and input-output-open-drain; for the
remaining mode it returns failure and leaves the whole state (bus trace,
`inputMap`, `port`) as it was. -/
theorem digital_setDirection_mode_mapping (t : Transport) (s : State) (id : Nat) :
    (Digital.setDirection t s id gpio_mode_t.GPIO_MODE_INPUT).2
      = (Pca95x5.setPinMode t s id true).2 ∧
    (Digital.setDirection t s id gpio_mode_t.GPIO_MODE_OUTPUT).2
      = (Pca95x5.setPinMode t s id false).2 ∧
    (Digital.setDirection t s id gpio_mode_t.GPIO_MODE_OUTPUT_OD).2
      = (Pca95x5.setPinMode t s id false).2 ∧
    (Digital.setDirection t s id gpio_mode_t.GPIO_MODE_INPUT_OUTPUT).2
      = (Pca95x5.setPinMode t s id false).2 ∧
    (Digital.setDirection t s id gpio_mode_t.GPIO_MODE_INPUT_OUTPUT_OD).2
      = (Pca95x5.setPinMode t s id false).2 ∧
    (∀ mode, mode ≠ gpio_mode_t.GPIO_MODE_INPUT → mode ≠ gpio_mode_t.GPIO_MODE_OUTPUT →
      mode ≠ gpio_mode_t.GPIO_MODE_OUTPUT_OD → mode ≠ gpio_mode_t.GPIO_MODE_INPUT_OUTPUT →
      mode ≠ gpio_mode_t.GPIO_MODE_INPUT_OUTPUT_OD →
      Digital.setDirection t s id mode = (ESP_FAIL, s)) := by
  refine ⟨rfl, rfl, rfl, rfl, rfl, ?_⟩
  intro mode h1 h2 h3 h4 h5
  cases mode <;> first | rfl | contradiction

/-- C13 at concrete inputs: pin 3 of the scenario device, input mode and
output mode on a working bus, and the disabled mode. -/
theorem digital_setDirection_mode_mapping_witness :
    (Digital.setDirection okBus (Pca95x5.setPinMode okBus idleState 3 false).2 3
        gpio_mode_t.GPIO_MODE_INPUT).2.dev._inputMap = 0xFFFF ∧
    (Digital.setDirection okBus idleState 3 gpio_mode_t.GPIO_MODE_OUTPUT_OD).2.dev._inputMap
      = 0xFFF7 ∧
    Digital.setDirection okBus idleState 3 gpio_mode_t.GPIO_MODE_DISABLE = (ESP_FAIL, idleState) := by
  have h := digital_setDirection_mode_mapping okBus idleState 3
  exact ⟨by decide, by decide, h.2.2.2.2.2 _ (by decide) (by decide) (by decide) (by decide)
    (by decide)⟩

/-- C14: `Digital::setPull(mode)` returns success exactly for pull-up-only;
pull-down, both and floating return failure; in every case the state (bus
trace, `port`, `inputMap`, transaction) is left as it was. -/
theorem digital_setPull_only_pullup (s : State) (pull : gpio_pull_mode_t) :
    ((Digital.setPull s pull).1 = ESP_OK ↔ pull = gpio_pull_mode_t.GPIO_PULLUP_ONLY) ∧
    (pull ≠ gpio_pull_mode_t.GPIO_PULLUP_ONLY → (Digital.setPull s pull).1 = ESP_FAIL) ∧
    (Digital.setPull s pull).2 = s := by
  cases pull <;> simp [Digital.setPull, ESP_OK, ESP_FAIL]

/-- C14 at concrete inputs: pull-down is refused inside a Write transaction
without any change of state; pull-up is accepted. -/
theorem digital_setPull_only_pullup_witness :
    Digital.setPull
        { idleState with tx := some { type := Tx.Write, readPerformed := false, finalizer := none } }
        gpio_pull_mode_t.GPIO_PULLDOWN_ONLY
      = (ESP_FAIL,
        { idleState with tx := some { type := Tx.Write, readPerformed := false, finalizer := none } }) ∧
    (Digital.setPull idleState gpio_pull_mode_t.GPIO_PULLUP_ONLY).1 = ESP_OK := by
  have h := digital_setPull_only_pullup idleState gpio_pull_mode_t.GPIO_PULLUP_ONLY
  exact ⟨by decide, h.1.2 rfl⟩

/-! ## Initialization -/

/-- C17: `init()` issues no register write. When the bus does not fail it
issues exactly two reads, the input-status register (offset 0) into `port`
and then the configuration register (offset 6) into `inputMap`, and returns
success with `port` and `inputMap` equal to the values read. When the first
read fails it returns that error without issuing the second read; when the
second read fails it returns that error. -/
theorem init_reads_input_then_config (t : Transport) (s : State) :
    ((t.readSafe s.dev._i2c.trace RegInput s.dev._port).1 = ESP_OK →
      (t.readSafe (s.dev._i2c.trace ++ [BusOp.read 0]) RegConfig s.dev._inputMap).1 = ESP_OK →
      (Pca95x5.init t s).1 = ESP_OK ∧
      (Pca95x5.init t s).2.dev._port
        = (t.readSafe s.dev._i2c.trace RegInput s.dev._port).2 % 65536 ∧
      (Pca95x5.init t s).2.dev._inputMap
        = (t.readSafe (s.dev._i2c.trace ++ [BusOp.read 0]) RegConfig s.dev._inputMap).2 % 65536 ∧
      (Pca95x5.init t s).2.dev._i2c.trace
        = s.dev._i2c.trace ++ [BusOp.read 0, BusOp.read 6]) ∧
    ((t.readSafe s.dev._i2c.trace RegInput s.dev._port).1 ≠ ESP_OK →
      (Pca95x5.init t s).1 = (t.readSafe s.dev._i2c.trace RegInput s.dev._port).1 ∧
      (Pca95x5.init t s).2.dev._i2c.trace = s.dev._i2c.trace ++ [BusOp.read 0]) ∧
    ((t.readSafe s.dev._i2c.trace RegInput s.dev._port).1 = ESP_OK →
      (t.readSafe (s.dev._i2c.trace ++ [BusOp.read 0]) RegConfig s.dev._inputMap).1 ≠ ESP_OK →
      (Pca95x5.init t s).1
        = (t.readSafe (s.dev._i2c.trace ++ [BusOp.read 0]) RegConfig s.dev._inputMap).1 ∧
      (Pca95x5.init t s).2.dev._i2c.trace
        = s.dev._i2c.trace ++ [BusOp.read 0, BusOp.read 6]) ∧
    (issued s (Pca95x5.init t s).2).filter BusOp.isWrite = [] := by
  unfold Pca95x5.init
  simp only [I2C.readSafe, I2C.setErrSnooze, I2C.setEndianness, RegInput, RegConfig, issued]
  by_cases h1 : (t.readSafe s.dev._i2c.trace 0 s.dev._port).1 = ESP_OK
  · by_cases h2 : (t.readSafe (s.dev._i2c.trace ++ [BusOp.read 0]) 6 s.dev._inputMap).1 = ESP_OK
    · simp [h1, h2, BusOp.isWrite]
    · simp [h1, h2, BusOp.isWrite]
  · simp [h1, BusOp.isWrite]

/-- C17 at concrete inputs: `init()` of the scenario device on a working bus
(both registers deliver `0x1234`) and on a dead bus. -/
theorem init_reads_input_then_config_witness :
    Pca95x5.init okBus idleState
      = (ESP_OK, { idleState with dev :=
          { _i2c := { freshI2C with trace := [BusOp.read 0, BusOp.read 6] }
            _port := 0x1234, _inputMap := 0x1234 } }) ∧
    (Pca95x5.init deadBus idleState).1 = ESP_FAIL ∧
    (Pca95x5.init deadBus idleState).2.dev._i2c.trace = [BusOp.read 0] := by
  have h := (init_reads_input_then_config deadBus idleState).2.1 (by decide)
  exact ⟨by decide, h.1, h.2⟩

/-! ## Failure paths -/

theorem commit_keeps (t : Transport) (s : State) :
    (Pca95x5.commit t s).2.tx = s.tx ∧ (Pca95x5.commit t s).2.this = s.this ∧
    (Pca95x5.commit t s).2.dev._port = s.dev._port ∧
    (Pca95x5.commit t s).2.dev._inputMap = s.dev._inputMap := by
  unfold Pca95x5.commit
  simp only [I2C.writeSafe]
  split_ifs <;> exact ⟨rfl, rfl, rfl, rfl⟩

theorem commit_fst (t : Transport) (s : State) :
    (Pca95x5.commit t s).1
      = if t.writeSafe s.dev._i2c.trace RegConfig s.dev._inputMap = ESP_OK then
          t.writeSafe (s.dev._i2c.trace ++ [BusOp.write 6 s.dev._inputMap]) RegOutput s.dev._port
        else t.writeSafe s.dev._i2c.trace RegConfig s.dev._inputMap := by
  unfold Pca95x5.commit
  simp only [I2C.writeSafe, RegConfig, RegOutput]
  by_cases h1 : t.writeSafe s.dev._i2c.trace 6 s.dev._inputMap = ESP_OK
  · by_cases h2 : t.writeSafe (s.dev._i2c.trace ++ [BusOp.write 6 s.dev._inputMap]) 2
        s.dev._port = ESP_OK
    · simp [h1, h2]
    · simp [h1, h2]
  · simp [h1]

theorem readPin_refresh_fail (t : Transport) (s : State) (pin : Nat)
    (h : s.tx = none ∨ ∃ tx, s.tx = some tx ∧ tx.type &&& Tx.Read ≠ 0 ∧ tx.readPerformed = false)
    (hbad : (t.readSafe s.dev._i2c.trace RegInput s.dev._port).1 ≠ ESP_OK) :
    Pca95x5.readPin t s pin
      = ((t.readSafe s.dev._i2c.trace RegInput s.dev._port).1, none,
          { s with
            dev := { s.dev with
              _i2c := { s.dev._i2c with trace := s.dev._i2c.trace ++ [BusOp.read 0] }
              _port := (t.readSafe s.dev._i2c.trace RegInput s.dev._port).2 % 65536 } }) := by
  unfold Pca95x5.readPin
  simp only [RegInput] at hbad
  rcases h with h | ⟨tx, h, hr, hf⟩
  · simp [h, I2C.readSafe, RegInput, hbad]
  · have hb : (tx.type &&& Tx.Read != 0) = true := by simpa using hr
    simp [h, I2C.readSafe, RegInput, hbad, Tx.getReadPerformed, hf, hb]

/-- C15: when the refresh read issued by `writePin` fails, `writePin` returns
that failure, the read is its only bus access (no commit), `port` holds what
the failed read left in its destination, without the bit change (so `port` is
unchanged when the failed read does not touch its destination), and the
transaction is left as it was: read-performed flag unset, no finalizer
registered. Likewise, when the read issued by `readPin` fails, `readPin`
returns that failure, delivers no value, and leaves the transaction, flag
included, as it was. -/
theorem failed_read_aborts_call (t : Transport) (s : State) (pin : Nat) (value : Bool)
    (hbad : (t.readSafe s.dev._i2c.trace RegInput s.dev._port).1 ≠ ESP_OK) :
    ((∃ tx, s.tx = some tx ∧ tx.type &&& Tx.Read ≠ 0 ∧ tx.readPerformed = false) →
      (Pca95x5.writePin t s pin value).1
        = (t.readSafe s.dev._i2c.trace RegInput s.dev._port).1 ∧
      (Pca95x5.writePin t s pin value).2.dev._i2c.trace
        = s.dev._i2c.trace ++ [BusOp.read 0] ∧
      (Pca95x5.writePin t s pin value).2.dev._port
        = (t.readSafe s.dev._i2c.trace RegInput s.dev._port).2 % 65536 ∧
      ((t.readSafe s.dev._i2c.trace RegInput s.dev._port).2 = s.dev._port →
        s.dev._port < 65536 → (Pca95x5.writePin t s pin value).2.dev._port = s.dev._port) ∧
      (Pca95x5.writePin t s pin value).2.tx = s.tx) ∧
    ((s.tx = none ∨ ∃ tx, s.tx = some tx ∧ tx.type &&& Tx.Read ≠ 0 ∧ tx.readPerformed = false) →
      (Pca95x5.readPin t s pin).1 = (t.readSafe s.dev._i2c.trace RegInput s.dev._port).1 ∧
      (Pca95x5.readPin t s pin).2.1 = none ∧
      (Pca95x5.readPin t s pin).2.2.dev._i2c.trace = s.dev._i2c.trace ++ [BusOp.read 0] ∧
      (Pca95x5.readPin t s pin).2.2.tx = s.tx) := by
  constructor
  · rintro ⟨tx, h, hr, hf⟩
    rw [writePin_refresh_fail t s pin value tx h hr hf hbad]
    refine ⟨rfl, rfl, rfl, ?_, rfl⟩
    intro h1 h2
    simp only [h1]
    exact Nat.mod_eq_of_lt h2
  · intro h
    rw [readPin_refresh_fail t s pin h hbad]
    exact ⟨rfl, rfl, rfl, rfl⟩

/-- C15 at a concrete input: `writePin(3, true)` and `readPin(3)` in a fresh
ReadWrite transaction on a dead bus. -/
theorem failed_read_aborts_call_witness :
    Pca95x5.writePin deadBus
        { idleState with tx := some { type := Tx.ReadWrite, readPerformed := false, finalizer := none } }
        3 true
      = (ESP_FAIL,
          { this := 1
            dev := { _i2c := { freshI2C with trace := [BusOp.read 0] }
                     _port := 0, _inputMap := 0xFFFF }
            tx := some { type := Tx.ReadWrite, readPerformed := false, finalizer := none } }) ∧
    (Pca95x5.readPin deadBus
        { idleState with tx := some { type := Tx.ReadWrite, readPerformed := false, finalizer := none } }
        3).2.1 = none := by
  have h := failed_read_aborts_call deadBus
    { idleState with tx := some { type := Tx.ReadWrite, readPerformed := false, finalizer := none } }
    3 true (by decide)
  exact ⟨by decide, (h.2 (Or.inr ⟨_, rfl, by decide, rfl⟩)).2.1⟩

theorem writePinCached_port (t : Transport) (s : State) (pin : Nat) (value : Bool) :
    (Pca95x5.writePinCached t s pin value).2.dev._port = (s.dev.setPortBit pin value)._port := by
  rcases hs : s.tx with _ | tx
  · rw [writePinCached_commit t s pin value (Or.inl hs)]
    exact (commit_keeps t _).2.2.1
  · by_cases hw : tx.type &&& Tx.Write = 0
    · rw [writePinCached_commit t s pin value (Or.inr ⟨tx, hs, hw⟩)]
      exact (commit_keeps t _).2.2.1
    · rw [writePinCached_defer t s pin value tx hs hw]

theorem writePinCached_tx (t : Transport) (s : State) (pin : Nat) (value : Bool) (tx : Tx)
    (h : s.tx = some tx) :
    ∃ tx1, (Pca95x5.writePinCached t s pin value).2.tx = some tx1 ∧ tx1.type = tx.type ∧
      tx1.readPerformed = tx.readPerformed ∧
      (∀ d, tx.finalizer = some d → tx1.finalizer = some d) := by
  by_cases hw : tx.type &&& Tx.Write = 0
  · rw [writePinCached_commit t s pin value (Or.inr ⟨tx, h, hw⟩)]
    exact ⟨tx, (commit_keeps t _).1.trans h, rfl, rfl, fun _ hd => hd⟩
  · rw [writePinCached_defer t s pin value tx h hw]
    refine ⟨_, rfl, ?_, ?_, ?_⟩
    · split_ifs <;> rfl
    · split_ifs <;> rfl
    · intro d hd
      simp [hd]

/-- C16: no rollback of the cache. When `writePin(pin, value)` (pin in 0..15)
commits during the call (no transaction, or one without the Write flag) and a
register write of that commit fails, `writePin` returns that failure and bit
`pin` of the cached `port` is still `value`; this is stated for the call
without a refresh and for the call whose refresh read succeeded. When the
configuration write of `setPinMode(pin, input)` fails, the call returns that
failure and bit `pin` of `inputMap` is still `input`. -/
theorem failed_write_keeps_cache (t : Transport) (s : State) (pin : Nat) (value input : Bool)
    (hp : pin < 16) :
    ((s.tx = none ∨ ∃ tx, s.tx = some tx ∧ tx.type &&& Tx.Write = 0 ∧
        (tx.type &&& Tx.Read = 0 ∨ tx.readPerformed = true)) →
      (Pca95x5.writePin t s pin value).2.dev._port.testBit pin = value ∧
      (t.writeSafe s.dev._i2c.trace RegConfig s.dev._inputMap ≠ ESP_OK →
        (Pca95x5.writePin t s pin value).1
          = t.writeSafe s.dev._i2c.trace RegConfig s.dev._inputMap) ∧
      (t.writeSafe s.dev._i2c.trace RegConfig s.dev._inputMap = ESP_OK →
        (Pca95x5.writePin t s pin value).1
          = t.writeSafe (s.dev._i2c.trace ++ [BusOp.write 6 s.dev._inputMap]) RegOutput
              (Pca95x5.writePin t s pin value).2.dev._port)) ∧
    ((∃ tx, s.tx = some tx ∧ tx.type &&& Tx.Write = 0 ∧ tx.type &&& Tx.Read ≠ 0 ∧
        tx.readPerformed = false) →
      (t.readSafe s.dev._i2c.trace RegInput s.dev._port).1 = ESP_OK →
      (Pca95x5.writePin t s pin value).2.dev._port.testBit pin = value ∧
      (t.writeSafe (s.dev._i2c.trace ++ [BusOp.read 0]) RegConfig s.dev._inputMap ≠ ESP_OK →
        (Pca95x5.writePin t s pin value).1
          = t.writeSafe (s.dev._i2c.trace ++ [BusOp.read 0]) RegConfig s.dev._inputMap) ∧
      (t.writeSafe (s.dev._i2c.trace ++ [BusOp.read 0]) RegConfig s.dev._inputMap = ESP_OK →
        (Pca95x5.writePin t s pin value).1
          = t.writeSafe
              (s.dev._i2c.trace ++ [BusOp.read 0] ++ [BusOp.write 6 s.dev._inputMap]) RegOutput
              (Pca95x5.writePin t s pin value).2.dev._port)) ∧
    ((Pca95x5.setPinMode t s pin input).2.dev._inputMap.testBit pin = input ∧
      (Pca95x5.setPinMode t s pin input).1
        = t.writeSafe s.dev._i2c.trace RegConfig
            (Pca95x5.setPinMode t s pin input).2.dev._inputMap) := by
  have hp32 : pin < 32 := by omega
  refine ⟨?_, ?_, ?_, ?_⟩
  · intro hc
    have hno : s.tx = none ∨
        ∃ tx, s.tx = some tx ∧ (tx.type &&& Tx.Read = 0 ∨ tx.readPerformed = true) := by
      rcases hc with hc | ⟨tx, h, _, hr⟩
      · exact Or.inl hc
      · exact Or.inr ⟨tx, h, hr⟩
    have hcm : s.tx = none ∨ ∃ tx, s.tx = some tx ∧ tx.type &&& Tx.Write = 0 := by
      rcases hc with hc | ⟨tx, h, hw, _⟩
      · exact Or.inl hc
      · exact Or.inr ⟨tx, h, hw⟩
    have hport : (Pca95x5.writePin t s pin value).2.dev._port
        = (s.dev.setPortBit pin value)._port := by
      rw [writePin_no_refresh t s pin value hno, writePinCached_port]
    have hfst : (Pca95x5.writePin t s pin value).1
        = (Pca95x5.commit t { s with dev := s.dev.setPortBit pin value }).1 := by
      rw [writePin_no_refresh t s pin value hno, writePinCached_commit t s pin value hcm]
    refine ⟨?_, ?_, ?_⟩
    · rw [hport, setPortBit_testBit _ hp32]
      simp [hp]
    · intro h1
      rw [hfst, commit_fst]
      simp only [setPortBit_i2c, setPortBit_inputMap, h1, if_false]
    · intro h1
      rw [hport, hfst, commit_fst]
      simp only [setPortBit_i2c, setPortBit_inputMap, h1, if_true]
  · rintro ⟨tx, h, hw, hr, hf⟩ hok
    have hstep := writePin_refresh_ok t s pin value tx h hr hf hok
    have hport : (Pca95x5.writePin t s pin value).2.dev._port
        = (({ s.dev with
              _i2c := { s.dev._i2c with trace := s.dev._i2c.trace ++ [BusOp.read 0] }
              _port := (t.readSafe s.dev._i2c.trace RegInput s.dev._port).2 % 65536 }
            : Pca95x5).setPortBit pin value)._port := by
      rw [hstep, writePinCached_port]
    refine ⟨?_, ?_, ?_⟩
    · rw [hport, setPortBit_testBit _ hp32]
      simp [hp]
    · intro h1
      rw [hstep, writePinCached_commit t _ pin value
        (Or.inr ⟨{ tx with readPerformed := true }, rfl, hw⟩), commit_fst]
      simp only [setPortBit_i2c, setPortBit_inputMap, h1, if_false]
    · intro h1
      rw [hport, hstep, writePinCached_commit t _ pin value
        (Or.inr ⟨{ tx with readPerformed := true }, rfl, hw⟩), commit_fst]
      simp only [setPortBit_i2c, setPortBit_inputMap, h1, if_true]
  · rw [setPinMode_testBit t s hp32]
    simp [hp]
  · rw [setPinMode_fst, setPinMode_inputMap]

/-- C16 at concrete inputs: on a bus whose output write fails
`writePin(3, true)` outside a transaction fails with bit 3 of `port` set; on a
dead bus `setPinMode(3, false)` fails with bit 3 of `inputMap` cleared. -/
theorem failed_write_keeps_cache_witness :
    (Pca95x5.writePin outputFailBus idleState 3 true).1 = ESP_FAIL ∧
    (Pca95x5.writePin outputFailBus idleState 3 true).2.dev._port.testBit 3 = true ∧
    (Pca95x5.setPinMode deadBus idleState 3 false).1 = ESP_FAIL ∧
    (Pca95x5.setPinMode deadBus idleState 3 false).2.dev._inputMap.testBit 3 = false := by
  have h := failed_write_keeps_cache outputFailBus idleState 3 true false (by decide)
  have h2 := failed_write_keeps_cache deadBus idleState 3 true false (by decide)
  exact ⟨by decide, (h.1 (Or.inl rfl)).1, by decide, h2.2.2.1⟩

/-! ## The cache answers reads of written pins -/

/-- C18: inside an active transaction of any type and any flag state, when
`writePin(p, v)` with p in 0..15 returns success, an immediately following
`readPin(p)` on the same device in the same transaction returns success with
the value `v` and leaves the whole state, bus trace included, as it was (no
bus access). -/
theorem readPin_after_writePin_same_tx (t : Transport) (s : State) (tx : Tx) (pin : Nat)
    (value : Bool) (h : s.tx = some tx) (hp : pin < 16)
    (hok : (Pca95x5.writePin t s pin value).1 = ESP_OK) :
    Pca95x5.readPin t (Pca95x5.writePin t s pin value).2 pin
      = (ESP_OK, some value, (Pca95x5.writePin t s pin value).2) := by
  have hp32 : pin < 32 := by omega
  have key : ∃ tx1, (Pca95x5.writePin t s pin value).2.tx = some tx1 ∧
      (tx1.type &&& Tx.Read = 0 ∨ tx1.readPerformed = true) ∧
      (Pca95x5.writePin t s pin value).2.dev._port.testBit pin = value := by
    by_cases hrf : tx.type &&& Tx.Read ≠ 0 ∧ tx.readPerformed = false
    · by_cases hrd : (t.readSafe s.dev._i2c.trace RegInput s.dev._port).1 = ESP_OK
      · rw [writePin_refresh_ok t s pin value tx h hrf.1 hrf.2 hrd]
        obtain ⟨tx1, h1, _, h3, _⟩ :=
          writePinCached_tx t
            { s with
              dev := { s.dev with
                _i2c := { s.dev._i2c with trace := s.dev._i2c.trace ++ [BusOp.read 0] }
                _port := (t.readSafe s.dev._i2c.trace RegInput s.dev._port).2 % 65536 }
              tx := some { tx with readPerformed := true } }
            pin value { tx with readPerformed := true } rfl
        refine ⟨tx1, h1, Or.inr h3, ?_⟩
        rw [writePinCached_port, setPortBit_testBit _ hp32]
        simp [hp]
      · rw [writePin_refresh_fail t s pin value tx h hrf.1 hrf.2 hrd] at hok
        exact absurd hok hrd
    · have hno : tx.type &&& Tx.Read = 0 ∨ tx.readPerformed = true := by
        by_contra hcon
        push_neg at hcon
        exact hrf ⟨hcon.1, by simpa using hcon.2⟩
      rw [writePin_no_refresh t s pin value (Or.inr ⟨tx, h, hno⟩)]
      obtain ⟨tx1, h1, h2, h3, _⟩ := writePinCached_tx t s pin value tx h
      refine ⟨tx1, h1, ?_, ?_⟩
      · rw [h2, h3]; exact hno
      · rw [writePinCached_port, setPortBit_testBit _ hp32]
        simp [hp]
  obtain ⟨tx1, h1, h2, h3⟩ := key
  rw [readPin_cached t _ pin tx1 h1 h2, and_shl1_ne_zero _ hp32, h3]

/-- C18 at a concrete input: pin 3 lowered and read back inside a Read-only
transaction whose flag is unset, the bus delivering `0x1234`. -/
theorem readPin_after_writePin_same_tx_witness :
    (Pca95x5.readPin okBus
        (Pca95x5.writePin okBus
          { idleState with tx := some { type := Tx.Read, readPerformed := false, finalizer := none } }
          2 false).2 2).2.1 = some false ∧
    (Pca95x5.readPin okBus
        (Pca95x5.writePin okBus
          { idleState with tx := some { type := Tx.Read, readPerformed := false, finalizer := none } }
          2 false).2 2).2.2.dev._i2c.trace
      = [BusOp.read 0, BusOp.write 6 0xFFFF, BusOp.write 2 0x1230] := by
  have h := readPin_after_writePin_same_tx okBus
    { idleState with tx := some { type := Tx.Read, readPerformed := false, finalizer := none } }
    { type := Tx.Read, readPerformed := false, finalizer := none } 2 false rfl (by decide)
    (by decide)
  rw [h]
  exact ⟨rfl, by decide⟩

/-! ## Monotonicity of the transaction state -/

theorem Tx.Preserved.refl (a : Tx) : Tx.Preserved a a := ⟨rfl, fun h => h, fun _ h => h⟩

theorem Tx.Preserved.trans {a b c : Tx} (h1 : Tx.Preserved a b) (h2 : Tx.Preserved b c) :
    Tx.Preserved a c :=
  ⟨h2.1.trans h1.1, fun h => h2.2.1 (h1.2.1 h), fun d h => h2.2.2 d (h1.2.2 d h)⟩

theorem writePin_tx_preserved (t : Transport) (s : State) (pin : Nat) (value : Bool) (tx : Tx)
    (h : s.tx = some tx) :
    ∃ tx1, (Pca95x5.writePin t s pin value).2.tx = some tx1 ∧ Tx.Preserved tx tx1 := by
  by_cases hrf : tx.type &&& Tx.Read ≠ 0 ∧ tx.readPerformed = false
  · by_cases hrd : (t.readSafe s.dev._i2c.trace RegInput s.dev._port).1 = ESP_OK
    · rw [writePin_refresh_ok t s pin value tx h hrf.1 hrf.2 hrd]
      obtain ⟨tx1, h1, h2, h3, h4⟩ :=
        writePinCached_tx t
          { s with
            dev := { s.dev with
              _i2c := { s.dev._i2c with trace := s.dev._i2c.trace ++ [BusOp.read 0] }
              _port := (t.readSafe s.dev._i2c.trace RegInput s.dev._port).2 % 65536 }
            tx := some { tx with readPerformed := true } }
          pin value { tx with readPerformed := true } rfl
      exact ⟨tx1, h1, h2, fun _ => h3, h4⟩
    · rw [writePin_refresh_fail t s pin value tx h hrf.1 hrf.2 hrd]
      exact ⟨tx, h, Tx.Preserved.refl tx⟩
  · have hno : tx.type &&& Tx.Read = 0 ∨ tx.readPerformed = true := by
      by_contra hcon
      push_neg at hcon
      exact hrf ⟨hcon.1, by simpa using hcon.2⟩
    rw [writePin_no_refresh t s pin value (Or.inr ⟨tx, h, hno⟩)]
    obtain ⟨tx1, h1, h2, h3, h4⟩ := writePinCached_tx t s pin value tx h
    exact ⟨tx1, h1, h2, fun hf => h3.trans hf, h4⟩

theorem readPin_tx_preserved (t : Transport) (s : State) (pin : Nat) (tx : Tx)
    (h : s.tx = some tx) :
    ∃ tx1, (Pca95x5.readPin t s pin).2.2.tx = some tx1 ∧ Tx.Preserved tx tx1 := by
  by_cases hrf : tx.type &&& Tx.Read ≠ 0 ∧ tx.readPerformed = false
  · by_cases hrd : (t.readSafe s.dev._i2c.trace RegInput s.dev._port).1 = ESP_OK
    · obtain ⟨_, _, h3⟩ := readPin_refresh t s pin tx h hrf.1 hrf.2
      exact ⟨_, (h3 hrd).2.2, rfl, fun _ => rfl, fun _ hd => hd⟩
    · rw [readPin_refresh_fail t s pin (Or.inr ⟨tx, h, hrf.1, hrf.2⟩) hrd]
      exact ⟨tx, h, Tx.Preserved.refl tx⟩
  · have hno : tx.type &&& Tx.Read = 0 ∨ tx.readPerformed = true := by
      by_contra hcon
      push_neg at hcon
      exact hrf ⟨hcon.1, by simpa using hcon.2⟩
    rw [readPin_cached t s pin tx h hno]
    exact ⟨tx, h, Tx.Preserved.refl tx⟩

theorem run_tx_preserved (t : Transport) (s : State) (c : Call) (tx : Tx) (h : s.tx = some tx) :
    ∃ tx1, (c.run t s).2.2.tx = some tx1 ∧ Tx.Preserved tx tx1 := by
  cases c with
  | readPin pin => exact readPin_tx_preserved t s pin tx h
  | writePin pin value => exact writePin_tx_preserved t s pin value tx h
  | setPinMode pin input =>
    simp only [Call.run]
    rw [setPinMode_snd]
    exact ⟨tx, h, Tx.Preserved.refl tx⟩
  | commit =>
    simp only [Call.run]
    exact ⟨tx, (commit_keeps t s).1.trans h, Tx.Preserved.refl tx⟩

theorem world_run_tx_preserved (t : Nat → Transport) (ops : List (Nat × Call)) :
    ∀ (w : World) (tx : Tx), w.tx = some tx →
      ∃ tx1, (World.run t w ops).tx = some tx1 ∧ Tx.Preserved tx tx1 := by
  induction ops with
  | nil => intro w tx h; exact ⟨tx, h, Tx.Preserved.refl tx⟩
  | cons op ops ih =>
    intro w tx h
    obtain ⟨tx1, h1, h2⟩ :=
      run_tx_preserved (t op.1) { this := op.1, dev := w.devs op.1, tx := w.tx } op.2 tx h
    obtain ⟨tx2, h3, h4⟩ := ih (World.step t w op) tx1 h1
    exact ⟨tx2, h3, h2.trans h4⟩

/-- C19: over every sequence of calls (`readPin`, `writePin`, `setPinMode`,
`commit`) on any devices sharing one transaction, between any earlier point of
the sequence and any later one the transaction is still there, its type is the
same, a set read-performed flag is still set and a registered finalizer is
still the registered one; `setPinMode` and `commit` leave the transaction
state exactly as it was. -/
theorem tx_state_monotone (t : Nat → Transport) (w : World) (before after : List (Nat × Call)) :
    (∀ a, (World.run t w before).tx = some a →
      ∃ b, (World.run t w (before ++ after)).tx = some b ∧ b.type = a.type ∧
        (a.readPerformed = true → b.readPerformed = true) ∧
        (∀ d, a.finalizer = some d → b.finalizer = some d)) ∧
    (∀ (u : Transport) (s : State) (pin : Nat) (input : Bool),
      (Pca95x5.setPinMode u s pin input).2.tx = s.tx ∧ (Pca95x5.commit u s).2.tx = s.tx) := by
  constructor
  · intro a ha
    have happ : World.run t w (before ++ after) = World.run t (World.run t w before) after := by
      simp [World.run, List.foldl_append]
    rw [happ]
    exact world_run_tx_preserved t after _ a ha
  · intro u s pin input
    exact ⟨by rw [setPinMode_snd], (commit_keeps u s).1⟩

/-- C19 at a concrete input: two devices in one ReadWrite transaction; device
1 writes pin 3, device 2 reads pin 0 and writes pin 1, device 1 sets a
direction and commits: the type is still ReadWrite, the flag set by the first
call is still set, and device 1 is still the finalizer. -/
theorem tx_state_monotone_witness :
    (World.run (fun _ => okBus)
        { devs := fun _ => idleState.dev
          tx := some { type := Tx.ReadWrite, readPerformed := false, finalizer := none } }
        ([(1, Call.writePin 3 true)]
          ++ [(2, Call.readPin 0), (2, Call.writePin 1 true), (1, Call.setPinMode 3 false),
              (1, Call.commit)])).tx
      = some { type := Tx.ReadWrite, readPerformed := true, finalizer := some 1 } := by
  obtain ⟨b, hb, h1, h2, h3⟩ := (tx_state_monotone (fun _ => okBus)
    { devs := fun _ => idleState.dev
      tx := some { type := Tx.ReadWrite, readPerformed := false, finalizer := none } }
    [(1, Call.writePin 3 true)]
    [(2, Call.readPin 0), (2, Call.writePin 1 true), (1, Call.setPinMode 3 false),
      (1, Call.commit)]).1
    { type := Tx.ReadWrite, readPerformed := true, finalizer := some 1 } (by decide)
  rw [hb]
  have h2' := h2 rfl
  have h3' := h3 1 rfl
  cases b
  simp_all

/-! ## Pin indices beyond the sixteen lines -/

theorem testBit_high_of_lt {p i : Nat} (hp : p < 65536) (hi : 16 ≤ i) : p.testBit i = false := by
  apply Nat.testBit_lt_two_pow
  calc p < 2 ^ 16 := by simpa using hp
    _ ≤ 2 ^ i := Nat.pow_le_pow_right (by norm_num) hi

theorem or_shl1_high {p pin : Nat} (hp : p < 65536) (h16 : 16 ≤ pin) (h32 : pin < 32) :
    (p ||| shl1 pin) % 65536 = p := by
  apply Nat.eq_of_testBit_eq
  intro i
  rw [testBit_or_shl1 _ h32]
  by_cases hi : i < 16
  · have hne : pin ≠ i := by omega
    simp [hi, hne]
  · have hb := testBit_high_of_lt hp (show 16 ≤ i by omega)
    simp [hi, hb]

theorem and_notShl1_high {p pin : Nat} (hp : p < 65536) (h16 : 16 ≤ pin) (h32 : pin < 32) :
    (p &&& notShl1 pin) % 65536 = p := by
  apply Nat.eq_of_testBit_eq
  intro i
  rw [testBit_and_notShl1 _ h32]
  by_cases hi : i < 16
  · have hne : pin ≠ i := by omega
    simp [hi, hne]
  · have hb := testBit_high_of_lt hp (show 16 ≤ i by omega)
    simp [hi, hb]

theorem setPortBit_high (dev : Pca95x5) {pin : Nat} (value : Bool) (hp : dev._port < 65536)
    (h16 : 16 ≤ pin) (h32 : pin < 32) : dev.setPortBit pin value = dev := by
  unfold Pca95x5.setPortBit
  cases value
  · simp only [Bool.false_eq_true, if_false, and_notShl1_high hp h16 h32]
  · simp only [if_true, or_shl1_high hp h16 h32]

theorem readPin_value_high (t : Transport) (s : State) {pin : Nat} (hport : s.dev._port < 65536)
    (h16 : 16 ≤ pin) (h32 : pin < 32) (hok : (Pca95x5.readPin t s pin).1 = ESP_OK) :
    (Pca95x5.readPin t s pin).2.1 = some false := by
  by_cases hrf : s.tx = none ∨
      ∃ tx, s.tx = some tx ∧ tx.type &&& Tx.Read ≠ 0 ∧ tx.readPerformed = false
  · by_cases hrd : (t.readSafe s.dev._i2c.trace RegInput s.dev._port).1 = ESP_OK
    · have hval : (Pca95x5.readPin t s pin).2.1
          = some ((t.readSafe s.dev._i2c.trace RegInput s.dev._port).2 % 65536 &&& shl1 pin != 0) := by
        rcases hrf with h | ⟨tx, h, hr, hf⟩
        · unfold Pca95x5.readPin
          simp only [RegInput] at hrd
          simp [h, I2C.readSafe, RegInput, hrd]
        · exact ((readPin_refresh t s pin tx h hr hf).2.2 hrd).2.1
      rw [hval, and_shl1_ne_zero _ h32,
        testBit_high_of_lt (Nat.mod_lt _ (by norm_num)) h16]
    · rw [readPin_refresh_fail t s pin hrf hrd] at hok
      exact absurd hok hrd
  · have hc : ∃ tx, s.tx = some tx ∧ (tx.type &&& Tx.Read = 0 ∨ tx.readPerformed = true) := by
      rcases hs : s.tx with _ | tx
      · exact absurd (Or.inl hs) hrf
      · refine ⟨tx, rfl, ?_⟩
        by_contra hcon
        push_neg at hcon
        exact hrf (Or.inr ⟨tx, hs, hcon.1, by simpa using hcon.2⟩)
    obtain ⟨tx, h, hno⟩ := hc
    rw [readPin_cached t s pin tx h hno, and_shl1_ne_zero _ h32, testBit_high_of_lt hport h16]

theorem writePin_port_lt (t : Transport) (s : State) (pin : Nat) (value : Bool) :
    (Pca95x5.writePin t s pin value).2.dev._port < 65536 := by
  by_cases hrf : ∃ tx, s.tx = some tx ∧ tx.type &&& Tx.Read ≠ 0 ∧ tx.readPerformed = false
  · obtain ⟨tx, h, hr, hf⟩ := hrf
    by_cases hrd : (t.readSafe s.dev._i2c.trace RegInput s.dev._port).1 = ESP_OK
    · rw [writePin_refresh_ok t s pin value tx h hr hf hrd, writePinCached_port]
      exact setPortBit_port_lt _ _ _
    · rw [writePin_refresh_fail t s pin value tx h hr hf hrd]
      exact Nat.mod_lt _ (by norm_num)
  · have hno : s.tx = none ∨
        ∃ tx, s.tx = some tx ∧ (tx.type &&& Tx.Read = 0 ∨ tx.readPerformed = true) := by
      rcases hs : s.tx with _ | tx
      · exact Or.inl rfl
      · right
        refine ⟨tx, rfl, ?_⟩
        by_contra hcon
        push_neg at hcon
        exact hrf ⟨tx, hs, hcon.1, by simpa using hcon.2⟩
    rw [writePin_no_refresh t s pin value hno, writePinCached_port]
    exact setPortBit_port_lt _ _ _

/-- C20 (amended): no bounds check on the pin index. For a pin index in
16..30 and 16-bit caches, `writePin` applies no bit change for either value:
when the call does not refresh the cache, `port` is unchanged and the call is
exactly its usual bus traffic (the commit of the unchanged cache outside a
Write transaction, the plain finalizer registration inside one); when the
call refreshes the cache, `port` holds what the refresh read left and the call
is the refresh read followed by that same usual traffic on the refreshed
cache (or, when the read fails, the read alone). `setPinMode` leaves
`inputMap` unchanged and still issues its configuration write. A `readPin`
that succeeds returns false; hence a successful `writePin(pin, true)` followed
by a successful `readPin(pin)` returns false. -/
theorem high_pin_changes_no_bit (t : Transport) (s : State) (pin : Nat) (value input : Bool)
    (h16 : 16 ≤ pin) (h30 : pin ≤ 30) (hport : s.dev._port < 65536)
    (hmap : s.dev._inputMap < 65536) :
    ((s.tx = none ∨ ∃ tx, s.tx = some tx ∧ (tx.type &&& Tx.Read = 0 ∨ tx.readPerformed = true)) →
      (Pca95x5.writePin t s pin value).2.dev._port = s.dev._port) ∧
    ((s.tx = none ∨ ∃ tx, s.tx = some tx ∧ tx.type &&& Tx.Write = 0 ∧
        (tx.type &&& Tx.Read = 0 ∨ tx.readPerformed = true)) →
      Pca95x5.writePin t s pin value = Pca95x5.commit t s) ∧
    (∀ tx, s.tx = some tx → tx.type &&& Tx.Write ≠ 0 →
      (tx.type &&& Tx.Read = 0 ∨ tx.readPerformed = true) →
      Pca95x5.writePin t s pin value
        = (ESP_OK,
            { s with
              tx := some (if tx.finalizer.isNone then { tx with finalizer := some s.this }
                          else tx) })) ∧
    ((∃ tx, s.tx = some tx ∧ tx.type &&& Tx.Read ≠ 0 ∧ tx.readPerformed = false) →
      (Pca95x5.writePin t s pin value).2.dev._port
        = (t.readSafe s.dev._i2c.trace RegInput s.dev._port).2 % 65536) ∧
    (Pca95x5.setPinMode t s pin input).2.dev._inputMap = s.dev._inputMap ∧
    (Pca95x5.setPinMode t s pin input).2.dev._i2c.trace
      = s.dev._i2c.trace ++ [BusOp.write 6 s.dev._inputMap] ∧
    ((Pca95x5.readPin t s pin).1 = ESP_OK → (Pca95x5.readPin t s pin).2.1 = some false) ∧
    ((Pca95x5.writePin t s pin true).1 = ESP_OK →
      (Pca95x5.readPin t (Pca95x5.writePin t s pin true).2 pin).1 = ESP_OK →
      (Pca95x5.readPin t (Pca95x5.writePin t s pin true).2 pin).2.1 = some false) ∧
    (∀ tx, s.tx = some tx → tx.type &&& Tx.Read ≠ 0 → tx.readPerformed = false →
      (t.readSafe s.dev._i2c.trace RegInput s.dev._port).1 = ESP_OK →
      tx.type &&& Tx.Write = 0 →
      Pca95x5.writePin t s pin value
        = Pca95x5.commit t
            { s with
              dev := { s.dev with
                _i2c := { s.dev._i2c with trace := s.dev._i2c.trace ++ [BusOp.read 0] }
                _port := (t.readSafe s.dev._i2c.trace RegInput s.dev._port).2 % 65536 }
              tx := some { tx with readPerformed := true } }) ∧
    (∀ tx, s.tx = some tx → tx.type &&& Tx.Read ≠ 0 → tx.readPerformed = false →
      (t.readSafe s.dev._i2c.trace RegInput s.dev._port).1 = ESP_OK →
      tx.type &&& Tx.Write ≠ 0 →
      Pca95x5.writePin t s pin value
        = (ESP_OK,
            { s with
              dev := { s.dev with
                _i2c := { s.dev._i2c with trace := s.dev._i2c.trace ++ [BusOp.read 0] }
                _port := (t.readSafe s.dev._i2c.trace RegInput s.dev._port).2 % 65536 }
              tx := some (if tx.finalizer.isNone then
                            { tx with readPerformed := true, finalizer := some s.this }
                          else { tx with readPerformed := true }) })) ∧
    (∀ tx, s.tx = some tx → tx.type &&& Tx.Read ≠ 0 → tx.readPerformed = false →
      (t.readSafe s.dev._i2c.trace RegInput s.dev._port).1 ≠ ESP_OK →
      Pca95x5.writePin t s pin value
        = ((t.readSafe s.dev._i2c.trace RegInput s.dev._port).1,
            { s with
              dev := { s.dev with
                _i2c := { s.dev._i2c with trace := s.dev._i2c.trace ++ [BusOp.read 0] }
                _port := (t.readSafe s.dev._i2c.trace RegInput s.dev._port).2 % 65536 } })) := by
  have h32 : pin < 32 := by omega
  have hid : ∀ v, s.dev.setPortBit pin v = s.dev := fun v => setPortBit_high s.dev v hport h16 h32
  have hmapId : (Pca95x5.setPinMode t s pin input).2.dev._inputMap = s.dev._inputMap := by
    rw [setPinMode_inputMap]
    split
    · exact or_shl1_high hmap h16 h32
    · exact and_notShl1_high hmap h16 h32
  refine ⟨?_, ?_, ?_, ?_, hmapId, ?_, ?_, ?_, ?_, ?_, ?_⟩
  · intro hno
    rw [writePin_no_refresh t s pin value hno, writePinCached_port, hid]
  · intro hc
    have hno : s.tx = none ∨
        ∃ tx, s.tx = some tx ∧ (tx.type &&& Tx.Read = 0 ∨ tx.readPerformed = true) := by
      rcases hc with hc | ⟨tx, h, _, hr⟩
      · exact Or.inl hc
      · exact Or.inr ⟨tx, h, hr⟩
    have hcm : s.tx = none ∨ ∃ tx, s.tx = some tx ∧ tx.type &&& Tx.Write = 0 := by
      rcases hc with hc | ⟨tx, h, hw, _⟩
      · exact Or.inl hc
      · exact Or.inr ⟨tx, h, hw⟩
    rw [writePin_no_refresh t s pin value hno, writePinCached_commit t s pin value hcm, hid]
  · intro tx h hw hr
    rw [writePin_deferred t s pin value tx h hr hw, hid]
  · rintro ⟨tx, h, hr, hf⟩
    by_cases hrd : (t.readSafe s.dev._i2c.trace RegInput s.dev._port).1 = ESP_OK
    · rw [writePin_refresh_ok t s pin value tx h hr hf hrd, writePinCached_port,
        setPortBit_high _ value (Nat.mod_lt _ (by norm_num)) h16 h32]
    · rw [writePin_refresh_fail t s pin value tx h hr hf hrd]
  · rw [setPinMode_trace, hmapId]
  · exact readPin_value_high t s hport h16 h32
  · intro _ hok
    exact readPin_value_high t _ (writePin_port_lt t s pin true) h16 h32 hok
  · intro tx h hr hf hrd hw
    rw [writePin_refresh_ok t s pin value tx h hr hf hrd,
      writePinCached_commit t _ pin value (Or.inr ⟨{ tx with readPerformed := true }, rfl, hw⟩),
      setPortBit_high _ value (Nat.mod_lt _ (by norm_num)) h16 h32]
  · intro tx h hr hf hrd hw
    rw [writePin_refresh_ok t s pin value tx h hr hf hrd,
      writePinCached_defer t _ pin value { tx with readPerformed := true } rfl hw,
      setPortBit_high _ value (Nat.mod_lt _ (by norm_num)) h16 h32]
  · intro tx h hr hf hrd
    exact writePin_refresh_fail t s pin value tx h hr hf hrd

/-- C20 (amended) at a concrete input: pin 17 of a device with `port = 0x0008`,
outside any transaction, on a working bus whose input register delivers
`0x1234`. -/
theorem high_pin_changes_no_bit_witness :
    (Pca95x5.writePin okBus { idleState with dev := { idleState.dev with _port := 8 } }
        17 true).2.dev._port = 8 ∧
    (Pca95x5.writePin okBus { idleState with dev := { idleState.dev with _port := 8 } }
        17 true).2.dev._i2c.trace = [BusOp.write 6 0xFFFF, BusOp.write 2 8] ∧
    (Pca95x5.readPin okBus
        (Pca95x5.writePin okBus { idleState with dev := { idleState.dev with _port := 8 } }
          17 true).2 17).2.1 = some false := by
  have h := high_pin_changes_no_bit okBus
    { idleState with dev := { idleState.dev with _port := 8 } } 17 true false
    (by decide) (by decide) (by decide) (by decide)
  exact ⟨h.1 (Or.inl rfl), by decide, h.2.2.2.2.2.2.2.1 (by decide) (by decide)⟩

/-- C20 as stated fails when `writePin` refreshes the cache: in a fresh
ReadWrite transaction on a bus whose input register delivers `0x1234`,
`writePin(16, true)` changes `port` from `0x0000` to `0x1234`; and on a dead
bus `readPin(16)` outside a transaction returns failure and no value. -/
theorem high_pin_writePin_refresh_changes_port :
    idleState.dev._port = 0 ∧
    (Pca95x5.writePin okBus
        { idleState with tx := some { type := Tx.ReadWrite, readPerformed := false, finalizer := none } }
        16 true).2.dev._port = 0x1234 ∧
    (Pca95x5.readPin deadBus idleState 16).1 = ESP_FAIL ∧
    (Pca95x5.readPin deadBus idleState 16).2.1 = none := by
  decide

/-! ## Round trip through the chip -/

theorem chipBus_neverFails (c : Chip) : (chipBus c).NeverFails :=
  ⟨fun _ _ _ => rfl, fun _ _ _ => rfl⟩

theorem chip_input_testBit (c : Chip) {i : Nat} (hi : i < 16) :
    c.input.testBit i = if c.config.testBit i then c.external.testBit i else c.output.testBit i := by
  unfold Chip.input
  have h16 : (65536 : Nat) = 2 ^ 16 := by norm_num
  have h15 : (65535 : Nat) = 2 ^ 16 - 1 := by norm_num
  rw [h16, Nat.testBit_mod_two_pow, Nat.testBit_or, Nat.testBit_and, Nat.testBit_and,
    Nat.testBit_xor, h15, Nat.testBit_two_pow_sub_one, Nat.testBit_mod_two_pow]
  cases c.config.testBit i <;> simp [hi]

theorem chip_after_commit (c : Chip) (pre : List BusOp) (a b : Nat) :
    c.after (pre ++ [BusOp.write 6 a, BusOp.write 2 b])
      = { c.after pre with config := a % 65536, output := b % 65536 } := by
  simp [Chip.after, List.foldl_append, Chip.apply, RegOutput, RegConfig]

theorem chip_input_after_commit (c : Chip) (pre : List BusOp) (a b : Nat) {i : Nat} (hi : i < 16)
    (ha : a.testBit i = false) (hb : b.testBit i = true) :
    ((c.after (pre ++ [BusOp.write 6 a, BusOp.write 2 b])).input % 65536).testBit i = true := by
  have h16 : (65536 : Nat) = 2 ^ 16 := by norm_num
  rw [chip_after_commit, h16, Nat.testBit_mod_two_pow, ← h16, chip_input_testBit _ hi]
  simp only [h16, Nat.testBit_mod_two_pow, ha, hb]
  simp [hi]

theorem readPin_refresh_value (t : Transport) (s : State) (pin : Nat)
    (h : s.tx = none ∨ ∃ tx, s.tx = some tx ∧ tx.type &&& Tx.Read ≠ 0 ∧ tx.readPerformed = false)
    (hok : (t.readSafe s.dev._i2c.trace RegInput s.dev._port).1 = ESP_OK) :
    (Pca95x5.readPin t s pin).1 = ESP_OK ∧
    (Pca95x5.readPin t s pin).2.1
      = some ((t.readSafe s.dev._i2c.trace RegInput s.dev._port).2 % 65536 &&& shl1 pin != 0) := by
  rcases h with h | ⟨tx, h, hr, hf⟩
  · unfold Pca95x5.readPin
    simp only [RegInput] at hok
    simp [h, I2C.readSafe, RegInput, hok]
  · exact ⟨((readPin_refresh t s pin tx h hr hf).2.2 hok).1,
      ((readPin_refresh t s pin tx h hr hf).2.2 hok).2.1⟩

theorem readPin_of_flushed (c : Chip) (s : State) {pin : Nat} (hp : pin < 16)
    (hfl : s.dev.Flushed) (hout : s.dev._inputMap.testBit pin = false)
    (hbit : s.dev._port.testBit pin = true) :
    (Pca95x5.readPin (chipBus c) s pin).1 = ESP_OK ∧
    (Pca95x5.readPin (chipBus c) s pin).2.1 = some true := by
  have hp32 : pin < 32 := by omega
  by_cases hrf : s.tx = none ∨
      ∃ tx, s.tx = some tx ∧ tx.type &&& Tx.Read ≠ 0 ∧ tx.readPerformed = false
  · obtain ⟨h1, h2⟩ := readPin_refresh_value (chipBus c) s pin hrf rfl
    refine ⟨h1, ?_⟩
    rw [h2, and_shl1_ne_zero _ hp32]
    obtain ⟨pre, hpre⟩ := hfl
    simp only [chipBus, Chip.read, if_true, hpre]
    rw [chip_input_after_commit c pre _ _ hp hout hbit]
  · have hc : ∃ tx, s.tx = some tx ∧ (tx.type &&& Tx.Read = 0 ∨ tx.readPerformed = true) := by
      rcases hs : s.tx with _ | tx
      · exact absurd (Or.inl hs) hrf
      · refine ⟨tx, rfl, ?_⟩
        by_contra hcon
        push_neg at hcon
        exact hrf (Or.inr ⟨tx, hs, hcon.1, by simpa using hcon.2⟩)
    obtain ⟨tx, h, hno⟩ := hc
    rw [readPin_cached _ s pin tx h hno, and_shl1_ne_zero _ hp32, hbit]
    exact ⟨rfl, rfl⟩

theorem commit_flushed (t : Transport) (s : State) (ht : t.NeverFails) :
    (Pca95x5.commit t s).2.dev.Flushed := by
  rw [commit_of_neverFails t s ht]
  exact ⟨s.dev._i2c.trace, rfl⟩

theorem writePin_post (t : Transport) (s : State) {pin : Nat} (hp : pin < 16) (value : Bool)
    (ht : t.NeverFails)
    (hfin : ∀ tx, s.tx = some tx → tx.finalizer = none ∨ tx.finalizer = some s.this) :
    (Pca95x5.writePin t s pin value).1 = ESP_OK ∧
    (Pca95x5.writePin t s pin value).2.dev._port.testBit pin = value ∧
    (Pca95x5.writePin t s pin value).2.dev._inputMap = s.dev._inputMap ∧
    (Pca95x5.writePin t s pin value).2.this = s.this ∧
    (∀ tx1, (Pca95x5.writePin t s pin value).2.tx = some tx1 →
      (tx1.type &&& Tx.Read = 0 ∨ tx1.readPerformed = true)) ∧
    ((Pca95x5.writePin t s pin value).2.dev.Flushed ∨
      ∃ tx1, (Pca95x5.writePin t s pin value).2.tx = some tx1 ∧
        tx1.finalizer = some s.this) := by
  have hp32 : pin < 32 := by omega
  have hbit : ∀ d : Pca95x5, (d.setPortBit pin value)._port.testBit pin = value := by
    intro d
    rw [setPortBit_testBit _ hp32]
    simp [hp]
  rcases hs : s.tx with _ | tx
  · rw [writePin_no_refresh t s pin value (Or.inl hs),
      writePinCached_commit_ok t s pin value (Or.inl hs) ht]
    refine ⟨rfl, hbit _, setPortBit_inputMap _ _ _, rfl, ?_, Or.inl ⟨s.dev._i2c.trace, ?_⟩⟩
    · intro tx1 h1
      simp [hs] at h1
    · simp [setPortBit_inputMap]
  · have hfin' := hfin tx hs
    by_cases hrf : tx.type &&& Tx.Read ≠ 0 ∧ tx.readPerformed = false
    · rw [writePin_refresh_ok t s pin value tx hs hrf.1 hrf.2 (ht.1 _ _ _)]
      by_cases hw : tx.type &&& Tx.Write = 0
      · rw [writePinCached_commit_ok t _ pin value
          (Or.inr ⟨{ tx with readPerformed := true }, rfl, hw⟩) ht]
        refine ⟨rfl, hbit _, setPortBit_inputMap _ _ _, rfl, ?_,
          Or.inl ⟨s.dev._i2c.trace ++ [BusOp.read 0], ?_⟩⟩
        · intro tx1 h1
          simp only [Option.some.injEq] at h1
          subst h1
          exact Or.inr rfl
        · simp [setPortBit_inputMap]
      · rw [writePinCached_defer t _ pin value { tx with readPerformed := true } rfl hw]
        refine ⟨rfl, hbit _, setPortBit_inputMap _ _ _, rfl, ?_, Or.inr ⟨_, rfl, ?_⟩⟩
        · intro tx1 h1
          simp only [Option.some.injEq] at h1
          subst h1
          right
          split_ifs <;> rfl
        · rcases hfin' with hf | hf <;> simp [hf]
    · have hno : tx.type &&& Tx.Read = 0 ∨ tx.readPerformed = true := by
        by_contra hcon
        push_neg at hcon
        exact hrf ⟨hcon.1, by simpa using hcon.2⟩
      rw [writePin_no_refresh t s pin value (Or.inr ⟨tx, hs, hno⟩)]
      by_cases hw : tx.type &&& Tx.Write = 0
      · rw [writePinCached_commit_ok t s pin value (Or.inr ⟨tx, hs, hw⟩) ht]
        refine ⟨rfl, hbit _, setPortBit_inputMap _ _ _, rfl, ?_,
          Or.inl ⟨s.dev._i2c.trace, ?_⟩⟩
        · intro tx1 h1
          simp only [hs, Option.some.injEq] at h1
          subst h1
          exact hno
        · simp [setPortBit_inputMap]
      · rw [writePinCached_defer t s pin value tx hs hw]
        refine ⟨rfl, hbit _, setPortBit_inputMap _ _ _, rfl, ?_, Or.inr ⟨_, rfl, ?_⟩⟩
        · intro tx1 h1
          simp only [Option.some.injEq] at h1
          subst h1
          split_ifs <;> exact hno
        · rcases hfin' with hf | hf <;> simp [hf]

theorem endTx_flushed (t : Transport) (s : State) (ht : t.NeverFails)
    (h : s.dev.Flushed ∨ ∃ tx1, s.tx = some tx1 ∧ tx1.finalizer = some s.this) :
    (endTx t s).dev.Flushed ∧ (endTx t s).dev._port = s.dev._port ∧
    (endTx t s).dev._inputMap = s.dev._inputMap := by
  unfold endTx
  rcases hs : s.tx with _ | tx
  · rcases h with h | ⟨tx1, h1, _⟩
    · exact ⟨h, rfl, rfl⟩
    · simp [hs] at h1
  · simp only [Tx.getFinalizer]
    split_ifs with hf
    · exact ⟨commit_flushed t s ht, (commit_keeps t s).2.2.1, (commit_keeps t s).2.2.2⟩
    · rcases h with h | ⟨tx1, h1, h2⟩
      · exact ⟨h, rfl, rfl⟩
      · rw [hs] at h1
        cases h1
        exact absurd h2 hf

/-- C11 (amended): round trip for a pin configured as output. For a pin p in
0..15 whose bit of `inputMap` is clear, behind a bus that never fails and a
chip whose registers change only through this device's writes, and in any
transaction context whose finalizer slot is not held by another device,
`writePin(p, true)` succeeds and a following `readPin(p)` returns true: in the
same context, and also after the transaction has ended in any later context
(none, or a transaction of any type and flag state), including when `readPin`
refreshes the cache from the input-status register. -/
theorem round_trip_output_pin (c : Chip) (s : State) (pin : Nat) (later : Option Tx)
    (hp : pin < 16) (hout : s.dev._inputMap.testBit pin = false)
    (hfin : ∀ tx, s.tx = some tx → tx.finalizer = none ∨ tx.finalizer = some s.this) :
    (Pca95x5.writePin (chipBus c) s pin true).1 = ESP_OK ∧
    (Pca95x5.readPin (chipBus c) (Pca95x5.writePin (chipBus c) s pin true).2 pin).1 = ESP_OK ∧
    (Pca95x5.readPin (chipBus c) (Pca95x5.writePin (chipBus c) s pin true).2 pin).2.1
      = some true ∧
    (Pca95x5.readPin (chipBus c)
        { endTx (chipBus c) (Pca95x5.writePin (chipBus c) s pin true).2 with tx := later }
        pin).1 = ESP_OK ∧
    (Pca95x5.readPin (chipBus c)
        { endTx (chipBus c) (Pca95x5.writePin (chipBus c) s pin true).2 with tx := later }
        pin).2.1 = some true := by
  have hp32 : pin < 32 := by omega
  obtain ⟨h1, h2, h3, h4, h5, h6⟩ := writePin_post (chipBus c) s hp true (chipBus_neverFails c) hfin
  have h6' : (Pca95x5.writePin (chipBus c) s pin true).2.dev.Flushed ∨
      ∃ tx1, (Pca95x5.writePin (chipBus c) s pin true).2.tx = some tx1 ∧
        tx1.finalizer = some (Pca95x5.writePin (chipBus c) s pin true).2.this := by
    rw [h4]; exact h6
  have hsame : (Pca95x5.readPin (chipBus c) (Pca95x5.writePin (chipBus c) s pin true).2 pin).1
        = ESP_OK ∧
      (Pca95x5.readPin (chipBus c) (Pca95x5.writePin (chipBus c) s pin true).2 pin).2.1
        = some true := by
    rcases hs1 : (Pca95x5.writePin (chipBus c) s pin true).2.tx with _ | tx1
    · rcases h6 with hfl | ⟨tx1, ht1, _⟩
      · exact readPin_of_flushed c _ hp hfl (by rw [h3]; exact hout) h2
      · rw [hs1] at ht1
        cases ht1
    · rw [readPin_cached _ _ pin tx1 hs1 (h5 tx1 hs1), and_shl1_ne_zero _ hp32, h2]
      exact ⟨rfl, rfl⟩
  obtain ⟨e1, e2, e3⟩ := endTx_flushed (chipBus c) _ (chipBus_neverFails c) h6'
  have hlater := readPin_of_flushed c
    { endTx (chipBus c) (Pca95x5.writePin (chipBus c) s pin true).2 with tx := later } hp e1
    (by simp only [e3, h3]; exact hout) (by simp only [e2]; exact h2)
  exact ⟨h1, hsame.1, hsame.2, hlater.1, hlater.2⟩

/-- C11 (amended) at a concrete input: pin 3 made an output on the scenario
device, all lines held low from outside; `writePin(3, true)` in a Write
transaction, then `readPin(3)` outside any transaction after the transaction
has ended. -/
theorem round_trip_output_pin_witness :
    (Pca95x5.readPin (chipBus { output := 0, config := 0xFFF7, external := 0 })
        { endTx (chipBus { output := 0, config := 0xFFF7, external := 0 })
            (Pca95x5.writePin (chipBus { output := 0, config := 0xFFF7, external := 0 })
              { this := 1, dev := { _i2c := freshI2C, _port := 0, _inputMap := 0xFFF7 }
                tx := some { type := Tx.Write, readPerformed := false, finalizer := none } }
              3 true).2 with tx := none }
        3).2.1 = some true := by
  have h := round_trip_output_pin { output := 0, config := 0xFFF7, external := 0 }
    { this := 1, dev := { _i2c := freshI2C, _port := 0, _inputMap := 0xFFF7 }
      tx := some { type := Tx.Write, readPerformed := false, finalizer := none } }
    3 none (by decide) (by decide) (by decide)
  exact h.2.2.2.2

/-- C11 as stated fails for a pin configured as input: on the scenario device
(all pins inputs), all lines held low from outside, outside any transaction
and with no bus failure, `writePin(3, true)` succeeds, writing `0xFFFF` to the
configuration register and `0x0008` to the output register, and the following
`readPin(3)` refreshes the cache from the input-status register and returns
false. -/
theorem round_trip_fails_on_input_pin :
    (Pca95x5.writePin (chipBus { output := 0, config := 0xFFFF, external := 0 })
        idleState 3 true).1 = ESP_OK ∧
    (Pca95x5.writePin (chipBus { output := 0, config := 0xFFFF, external := 0 })
        idleState 3 true).2.dev._i2c.trace = [BusOp.write 6 0xFFFF, BusOp.write 2 8] ∧
    Pca95x5.readPin (chipBus { output := 0, config := 0xFFFF, external := 0 })
        (Pca95x5.writePin (chipBus { output := 0, config := 0xFFFF, external := 0 })
          idleState 3 true).2 3
      = (ESP_OK, some false,
          { this := 1
            dev := { _i2c := { freshI2C with
                       trace := [BusOp.write 6 0xFFFF, BusOp.write 2 8, BusOp.read 0] }
                     _port := 0, _inputMap := 0xFFFF }
            tx := none }) := by
  decide

/-! ## Immediate commit -/

/-- C5: `writePin(pin, value)` (pin in 0..15) commits during the call exactly
when there is no active transaction or the transaction's type does not include
Write. In that case, on a bus that does not fail, it returns success, the
register writes it issues are exactly two, the configuration register
(offset 6) with `inputMap` and then the output register (offset 2) with the
updated `port`, and the finalizer slot is left as it was. When the
transaction's type includes Write it issues no register write at all, on any
bus. Outside any transaction, on a bus that does not fail, the whole bus
traffic of the call is those two writes, with no read. The updated `port` is
the 16-bit value whose bit `pin` is `value` and whose other fifteen bits are
those of the `port` the bit change started from: the cached `port` when the
call does not refresh the cache, the value read when it does. -/
theorem writePin_commits_iff_not_deferred (t : Transport) (s : State) (pin : Nat)
    (value : Bool) (hp : pin < 16) :
    ((s.tx = none ∨ ∃ tx, s.tx = some tx ∧ tx.type &&& Tx.Write = 0) → t.NeverFails →
      (Pca95x5.writePin t s pin value).1 = ESP_OK ∧
      (issued s (Pca95x5.writePin t s pin value).2).filter BusOp.isWrite
        = [BusOp.write 6 s.dev._inputMap,
           BusOp.write 2 (Pca95x5.writePin t s pin value).2.dev._port] ∧
      (Pca95x5.writePin t s pin value).2.dev._port.testBit pin = value ∧
      (Pca95x5.writePin t s pin value).2.tx.bind Tx.finalizer = s.tx.bind Tx.finalizer) ∧
    ((∃ tx, s.tx = some tx ∧ tx.type &&& Tx.Write ≠ 0) →
      (issued s (Pca95x5.writePin t s pin value).2).filter BusOp.isWrite = []) ∧
    (s.tx = none → t.NeverFails →
      (Pca95x5.writePin t s pin value).2.dev._i2c.trace
        = s.dev._i2c.trace
          ++ [BusOp.write 6 s.dev._inputMap,
              BusOp.write 2 (Pca95x5.writePin t s pin value).2.dev._port]) ∧
    (Pca95x5.writePin t s pin value).2.dev._port < 65536 ∧
    ((s.tx = none ∨ ∃ tx, s.tx = some tx ∧ (tx.type &&& Tx.Read = 0 ∨ tx.readPerformed = true)) →
      ∀ i, i < 16 →
        (Pca95x5.writePin t s pin value).2.dev._port.testBit i
          = if i = pin then value else s.dev._port.testBit i) ∧
    ((∃ tx, s.tx = some tx ∧ tx.type &&& Tx.Read ≠ 0 ∧ tx.readPerformed = false) →
      (t.readSafe s.dev._i2c.trace RegInput s.dev._port).1 = ESP_OK →
      ∀ i, i < 16 →
        (Pca95x5.writePin t s pin value).2.dev._port.testBit i
          = if i = pin then value
            else ((t.readSafe s.dev._i2c.trace RegInput s.dev._port).2 % 65536).testBit i) := by
  have hp32 : pin < 32 := by omega
  have hbits : ∀ (d : Pca95x5) (i : Nat), i < 16 →
      (d.setPortBit pin value)._port.testBit i
        = if i = pin then value else d._port.testBit i := by
    intro d i hi
    rw [setPortBit_testBit _ hp32]
    by_cases hpi : pin = i
    · simp [hi, hpi]
    · simp [hi, hpi, Ne.symm hpi]
  refine ⟨?_, ?_, ?_, writePin_port_lt t s pin value, ?_, ?_⟩
  · intro hc ht
    by_cases hrf : ∃ tx, s.tx = some tx ∧ tx.type &&& Tx.Read ≠ 0 ∧ tx.readPerformed = false
    · obtain ⟨tx, h, hr, hf⟩ := hrf
      have hw : tx.type &&& Tx.Write = 0 := by
        rcases hc with hc | ⟨tx2, h2, hw⟩
        · simp [h] at hc
        · rw [h] at h2
          cases h2
          exact hw
      rw [writePin_refresh_ok t s pin value tx h hr hf (ht.1 _ _ _),
        writePinCached_commit_ok t _ pin value
          (Or.inr ⟨{ tx with readPerformed := true }, rfl, hw⟩) ht]
      refine ⟨rfl, ?_, ?_, ?_⟩
      · simp [issued, BusOp.isWrite, setPortBit_inputMap]
      · simp [setPortBit_testBit _ hp32, hp]
      · simp [h]
    · have hno : s.tx = none ∨
          ∃ tx, s.tx = some tx ∧ (tx.type &&& Tx.Read = 0 ∨ tx.readPerformed = true) := by
        rcases hs : s.tx with _ | tx
        · exact Or.inl rfl
        · right
          refine ⟨tx, rfl, ?_⟩
          by_contra hcon
          push_neg at hcon
          exact hrf ⟨tx, hs, hcon.1, by simpa using hcon.2⟩
      rw [writePin_no_refresh t s pin value hno, writePinCached_commit_ok t s pin value hc ht]
      refine ⟨rfl, ?_, ?_, rfl⟩
      · simp [issued, BusOp.isWrite]
      · simp [setPortBit_testBit _ hp32, hp]
  · rintro ⟨tx, h, hw⟩
    by_cases hrf : tx.type &&& Tx.Read ≠ 0 ∧ tx.readPerformed = false
    · by_cases hok : (t.readSafe s.dev._i2c.trace RegInput s.dev._port).1 = ESP_OK
      · rw [writePin_refresh_ok t s pin value tx h hrf.1 hrf.2 hok,
          writePinCached_defer t _ pin value { tx with readPerformed := true } rfl hw]
        simp [issued, BusOp.isWrite, setPortBit_i2c]
      · rw [writePin_refresh_fail t s pin value tx h hrf.1 hrf.2 hok]
        simp [issued, BusOp.isWrite]
    · have hno : tx.type &&& Tx.Read = 0 ∨ tx.readPerformed = true := by
        by_contra hcon
        push_neg at hcon
        exact hrf ⟨hcon.1, by simpa using hcon.2⟩
      rw [writePin_no_refresh t s pin value (Or.inr ⟨tx, h, hno⟩),
        writePinCached_defer t s pin value tx h hw]
      simp [issued, setPortBit_i2c]
  · intro h ht
    rw [writePin_no_refresh t s pin value (Or.inl h),
      writePinCached_commit_ok t s pin value (Or.inl h) ht]
  · intro hno i hi
    rw [writePin_no_refresh t s pin value hno, writePinCached_port]
    exact hbits _ i hi
  · rintro ⟨tx, h, hr, hf⟩ hok i hi
    rw [writePin_refresh_ok t s pin value tx h hr hf hok, writePinCached_port]
    exact hbits _ i hi

/-- C5 at concrete inputs: `writePin(3, true)` outside any transaction on a
device whose cached `port` is `0x00F0`, on a bus that does not fail: the
output register receives `0x00F8`; and the same call inside a ReadWrite
transaction issues no register write. -/
theorem writePin_commits_iff_not_deferred_witness :
    (Pca95x5.writePin okBus { idleState with dev := { idleState.dev with _port := 0xF0 } }
        3 true).2.dev._i2c.trace
      = [BusOp.write 6 0xFFFF, BusOp.write 2 0xF8] ∧
    (issued
        { idleState with tx := some { type := Tx.ReadWrite, readPerformed := false, finalizer := none } }
        (Pca95x5.writePin okBus
          { idleState with tx := some { type := Tx.ReadWrite, readPerformed := false, finalizer := none } }
          3 true).2).filter BusOp.isWrite = [] := by
  have h := writePin_commits_iff_not_deferred okBus
    { idleState with dev := { idleState.dev with _port := 0xF0 } } 3 true (by decide)
  have h2 := writePin_commits_iff_not_deferred okBus
    { idleState with tx := some { type := Tx.ReadWrite, readPerformed := false, finalizer := none } }
    3 true (by decide)
  exact ⟨(h.2.2.1 rfl okBus_neverFails).trans (by decide), h2.2.1 ⟨_, rfl, by decide⟩⟩

/-! ## Registration in an empty finalizer slot -/

theorem writePin_this (t : Transport) (s : State) (pin : Nat) (value : Bool) (tx : Tx)
    (h : s.tx = some tx) (hw : tx.type &&& Tx.Write ≠ 0) :
    (Pca95x5.writePin t s pin value).2.this = s.this := by
  by_cases hrf : tx.type &&& Tx.Read ≠ 0 ∧ tx.readPerformed = false
  · by_cases hrd : (t.readSafe s.dev._i2c.trace RegInput s.dev._port).1 = ESP_OK
    · rw [writePin_refresh_ok t s pin value tx h hrf.1 hrf.2 hrd,
        writePinCached_defer t _ pin value { tx with readPerformed := true } rfl hw]
    · rw [writePin_refresh_fail t s pin value tx h hrf.1 hrf.2 hrd]
  · have hno : tx.type &&& Tx.Read = 0 ∨ tx.readPerformed = true := by
      by_contra hcon
      push_neg at hcon
      exact hrf ⟨hcon.1, by simpa using hcon.2⟩
    rw [writePin_deferred t s pin value tx h hno hw]

theorem writePin_slot (t : Transport) (s : State) (pin : Nat) (value : Bool) (tx : Tx)
    (h : s.tx = some tx) (hw : tx.type &&& Tx.Write ≠ 0)
    (hok : (Pca95x5.writePin t s pin value).1 = ESP_OK) :
    ∃ tx1, (Pca95x5.writePin t s pin value).2.tx = some tx1 ∧
      tx1.finalizer = (if tx.finalizer.isNone then some s.this else tx.finalizer) ∧
      (Pca95x5.writePin t s pin value).2.dev._inputMap = s.dev._inputMap := by
  by_cases hrf : tx.type &&& Tx.Read ≠ 0 ∧ tx.readPerformed = false
  · by_cases hrd : (t.readSafe s.dev._i2c.trace RegInput s.dev._port).1 = ESP_OK
    · rw [writePin_refresh_ok t s pin value tx h hrf.1 hrf.2 hrd,
        writePinCached_defer t _ pin value { tx with readPerformed := true } rfl hw]
      refine ⟨_, rfl, ?_, setPortBit_inputMap _ _ _⟩
      split_ifs <;> rfl
    · rw [writePin_refresh_fail t s pin value tx h hrf.1 hrf.2 hrd] at hok
      exact absurd hok hrd
  · have hno : tx.type &&& Tx.Read = 0 ∨ tx.readPerformed = true := by
      by_contra hcon
      push_neg at hcon
      exact hrf ⟨hcon.1, by simpa using hcon.2⟩
    rw [writePin_deferred t s pin value tx h hno hw]
    refine ⟨_, rfl, ?_, setPortBit_inputMap _ _ _⟩
    split_ifs <;> rfl

/-- C4 (amended): in a transaction whose type includes Write and whose
finalizer slot is empty, a successful `writePin` on device D (pin in 0..15)
leaves D registered as the transaction's finalizer with the written bit in its
cached `port`; the end of the transaction then invokes D's `commit()` once,
and when the configuration-register write of that commit succeeds the commit
issues the configuration register (offset 6) with `inputMap` and then the
output register (offset 2) with D's cached `port`. When the slot is already
held, by D or by another device, a successful `writePin` leaves the holder in
the slot. -/
theorem writePin_registers_in_empty_slot (t : Transport) (s : State) (tx : Tx) (pin : Nat)
    (value : Bool) (h : s.tx = some tx) (hw : tx.type &&& Tx.Write ≠ 0) (hp : pin < 16)
    (hok : (Pca95x5.writePin t s pin value).1 = ESP_OK) :
    (tx.finalizer = none →
      (∃ tx1, (Pca95x5.writePin t s pin value).2.tx = some tx1 ∧
        tx1.finalizer = some s.this) ∧
      endTx t (Pca95x5.writePin t s pin value).2
        = { (Pca95x5.commit t (Pca95x5.writePin t s pin value).2).2 with tx := none } ∧
      (t.writeSafe (Pca95x5.writePin t s pin value).2.dev._i2c.trace RegConfig s.dev._inputMap
          = ESP_OK →
        (endTx t (Pca95x5.writePin t s pin value).2).dev._i2c.trace
          = (Pca95x5.writePin t s pin value).2.dev._i2c.trace
            ++ [BusOp.write 6 s.dev._inputMap,
                BusOp.write 2 (Pca95x5.writePin t s pin value).2.dev._port])) ∧
    (∀ d, tx.finalizer = some d →
      ∃ tx1, (Pca95x5.writePin t s pin value).2.tx = some tx1 ∧ tx1.finalizer = some d) ∧
    (Pca95x5.writePin t s pin value).2.dev._port.testBit pin = value := by
  obtain ⟨tx1, h1, h2, h3⟩ := writePin_slot t s pin value tx h hw hok
  have hthis := writePin_this t s pin value tx h hw
  refine ⟨?_, ?_, ?_⟩
  · intro hnone
    have hfin : tx1.finalizer = some s.this := by rw [h2, hnone]; rfl
    have hend : endTx t (Pca95x5.writePin t s pin value).2
        = { (Pca95x5.commit t (Pca95x5.writePin t s pin value).2).2 with tx := none } := by
      unfold endTx
      simp only [h1, Tx.getFinalizer, hfin, hthis, if_true]
    refine ⟨⟨tx1, h1, hfin⟩, hend, ?_⟩
    intro hcfg
    rw [hend]
    simp only []
    rw [commit_trace_of_config_ok t _ (by rw [h3]; exact hcfg), h3]
  · intro d hd
    exact ⟨tx1, h1, by rw [h2, hd]; rfl⟩
  · by_cases hrf : tx.type &&& Tx.Read ≠ 0 ∧ tx.readPerformed = false
    · by_cases hrd : (t.readSafe s.dev._i2c.trace RegInput s.dev._port).1 = ESP_OK
      · rw [writePin_refresh_ok t s pin value tx h hrf.1 hrf.2 hrd, writePinCached_port,
          setPortBit_testBit _ (by omega)]
        simp [hp]
      · rw [writePin_refresh_fail t s pin value tx h hrf.1 hrf.2 hrd] at hok
        exact absurd hok hrd
    · have hno : tx.type &&& Tx.Read = 0 ∨ tx.readPerformed = true := by
        by_contra hcon
        push_neg at hcon
        exact hrf ⟨hcon.1, by simpa using hcon.2⟩
      rw [writePin_no_refresh t s pin value (Or.inr ⟨tx, h, hno⟩), writePinCached_port,
        setPortBit_testBit _ (by omega)]
      simp [hp]

/-- C4 (amended) at a concrete input: `writePin(0, true)` on device 1 in a
fresh Write transaction on a working bus, then the end of the transaction. -/
theorem writePin_registers_in_empty_slot_witness :
    (Pca95x5.writePin okBus
        { idleState with tx := some { type := Tx.Write, readPerformed := false, finalizer := none } }
        0 true).2.tx
      = some { type := Tx.Write, readPerformed := false, finalizer := some 1 } ∧
    (endTx okBus
        (Pca95x5.writePin okBus
          { idleState with tx := some { type := Tx.Write, readPerformed := false, finalizer := none } }
          0 true).2).dev._i2c.trace
      = [BusOp.write 6 0xFFFF, BusOp.write 2 1] := by
  have h := writePin_registers_in_empty_slot okBus
    { idleState with tx := some { type := Tx.Write, readPerformed := false, finalizer := none } }
    { type := Tx.Write, readPerformed := false, finalizer := none } 0 true rfl (by decide)
    (by decide) (by decide)
  exact ⟨by decide, ((h.1 rfl).2.2 rfl).trans (by decide)⟩

end io
end esp32m
